import Mathlib

/-!
Shallow embedding of the subscription/dispatch engine of
`wakuwaku3/example-pubsub.go` (file `sub/subscriber.go`), together with
proofs about it.

Go `error` values are modelled as `Option String` (`none` is the Go
`nil` error).  The AWS client (`aws.Client`) is an external collaborator;
its four calls used by the subscriber are modelled as an `Oracle` of pure
functions, so that a whole execution of `Subscribe` is determined by the
oracle plus a chosen interleaving of the concurrent tasks.  The
concurrent part of `Subscribe` (the spawning goroutine, the per-queue
poll loops, the per-message dispatch goroutines, the semaphore channel
and the unbuffered `chFatal` channel) is embedded as a small-step
transition system `Step` further below; the sequential parts
(`NewSubscriber`, `SetHandler`, and the body of one dispatch goroutine)
are embedded as pure functions.
-/

namespace PubSub

/-- Model of a Go `error` value: `none` is the `nil` error. -/
abbrev GoErr := Option String

/-- Model of `aws.ReceiveMessage`: one fetched message. -/
structure ReceiveMessage where
  messageID : String
  receiptHandle : String
  body : Option String
deriving DecidableEq, Repr

/-- Model of `sub.HandlerOption` (`WaitTime int64`). -/
structure HandlerOption where
  waitTime : Int
deriving DecidableEq, Repr

/-- Result of running a Go handler body: an ordinary return of an error
value, or a runtime panic carrying the panic information. -/
inductive HandlerRes where
  | ret (err : GoErr)
  | panics (info : String)

/-- Model of a non-nil Go `sub.Handler` function value. -/
abbrev HandlerFn := String → Option String → HandlerRes

/-- Model of the anonymous struct `{handler Handler; option *HandlerOption}`
stored in the subscriber's `handlers` map.  `handler = none` models a nil
Go function value. -/
structure HandlerEntry where
  handler : Option HandlerFn
  option : HandlerOption

/-- Model of `sub.SubscriberOption`. -/
structure SubscriberOption where
  concurrencyMessageHandleLimit : Int
deriving DecidableEq, Repr

/-- Model of the `subscriber` struct: the registry (a Go map, modelled as
an association list in some iteration order) and the option.  The
semaphore channel is created from the option at construction and lives in
the transition-system state. -/
structure SubscriberData where
  handlers : List (String × HandlerEntry)
  option : SubscriberOption

/-- Go panic message produced by calling a nil function value. -/
def nilFuncPanicMsg : String :=
  ("runtime error: invalid memory address or nil pointer dereference")

/-- Invoking `handler.handler(msg.MessageID, msg.Body)`: a nil function
value panics, otherwise the function runs. -/
def applyHandler (entry : HandlerEntry) (msg : ReceiveMessage) : HandlerRes :=
  match entry.handler with
  | none => .panics nilFuncPanicMsg
  | some f => f msg.messageID msg.body

/-- Error message of `NewSubscriber` for a non-positive limit. -/
def limitErrMsg : String := ("set 1 or more for ConcurrencyMessageHandleLimit")

/-- Error message of `SetHandler` for a negative wait time. -/
def waitTimeErrMsg : String := ("set 0 or more for WaitTime")

/-- Embedding of `sub.NewSubscriber`: fails when
`ConcurrencyMessageHandleLimit < 1`, otherwise returns the subscriber
with an empty registry.  (The `aws.Client` argument takes no part in the
validation and is supplied later, as the `Oracle` of the transition
system.) -/
def NewSubscriber (option : SubscriberOption) : Except String SubscriberData :=
  if option.concurrencyMessageHandleLimit < 1 then
    .error limitErrMsg
  else
    .ok { handlers := [], option := option }

/-- Go map assignment `m[k] = v` on the association-list model: replaces
the entry in place when the key is present, otherwise appends. -/
def mapInsert (m : List (String × HandlerEntry)) (k : String) (v : HandlerEntry) :
    List (String × HandlerEntry) :=
  match m with
  | [] => [(k, v)]
  | (k', v') :: rest =>
    if k' = k then (k, v) :: rest else (k', v') :: mapInsert rest k v

/-- Go map lookup `m[k]` on the association-list model. -/
def mapFind (m : List (String × HandlerEntry)) (k : String) : Option HandlerEntry :=
  match m with
  | [] => none
  | (k', v') :: rest => if k' = k then some v' else mapFind rest k

/-- Embedding of `(*subscriber).SetHandler`: rejects `WaitTime < 0`
before touching the registry, otherwise stores the binding (replacing
any prior binding for the same queue name).  The returned pair is
(returned error, subscriber state after the call). -/
def SetHandler (t : SubscriberData) (queueName : String) (handler : Option HandlerFn)
    (option : HandlerOption) : GoErr × SubscriberData :=
  if option.waitTime < 0 then
    (some waitTimeErrMsg, t)
  else
    (none, { t with handlers := mapInsert t.handlers queueName ⟨handler, option⟩ })

/-- The four `aws.Client` calls used by the subscriber, as a pure oracle.
`receive` additionally takes the index of the fetch (how many
`ReceiveMessages` calls were made before on that queue identifier), so
that successive fetches may return different batches.  Each call returns
its result together with a Go error value. -/
structure Oracle where
  getQueueID : String → String × GoErr
  receive : String → Nat → List ReceiveMessage × GoErr
  reportSuccess : String → String → GoErr
  reportFailure : String → String → Int → GoErr

/-- Observable outcome of one dispatch goroutine body (the inner
`go func(msg *aws.ReceiveMessage)` of `Subscribe`), for one message:
which report calls it made (with their arguments), the error value it
attempted to send on `chFatal` (if any), and the panic information it
recovered (if any). -/
structure TaskOutcome where
  successCalls : List (String × String)
  failureCalls : List (String × String × Int)
  fatalSend : Option GoErr
  recoveredFrom : Option String
deriving DecidableEq, Repr

/-- Embedding of the body of one dispatch goroutine of `Subscribe`
(acquiring and releasing the semaphore are interleaving concerns handled
by the transition system; this function captures the sequential data
flow): run the handler; on a panic the deferred `recover` converts the
panic information to an error and sends it on `chFatal`, with no report
call made; on a non-nil handler error call `ReportFailureMessage` with
the resolved queue identifier, the receipt handle and the registered
`WaitTime`; on a nil handler error call `ReportSuccessMessage` with the
resolved queue identifier and the receipt handle; a non-nil error from
either report call is sent on `chFatal`. -/
def runTask (o : Oracle) (entry : HandlerEntry) (queueID : String)
    (msg : ReceiveMessage) : TaskOutcome :=
  match applyHandler entry msg with
  | .panics info =>
    { successCalls := [], failureCalls := []
      fatalSend := some (some info), recoveredFrom := some info }
  | .ret (some _) =>
    match o.reportFailure queueID msg.receiptHandle entry.option.waitTime with
    | some e =>
      { successCalls := [], failureCalls := [(queueID, msg.receiptHandle, entry.option.waitTime)]
        fatalSend := some (some e), recoveredFrom := none }
    | none =>
      { successCalls := [], failureCalls := [(queueID, msg.receiptHandle, entry.option.waitTime)]
        fatalSend := none, recoveredFrom := none }
  | .ret none =>
    match o.reportSuccess queueID msg.receiptHandle with
    | some e =>
      { successCalls := [(queueID, msg.receiptHandle)], failureCalls := []
        fatalSend := some (some e), recoveredFrom := none }
    | none =>
      { successCalls := [(queueID, msg.receiptHandle)], failureCalls := []
        fatalSend := none, recoveredFrom := none }

/-!
The transition system.  One state of `EngineState` is one instant of a
run of `Subscribe`: the occupancy of the semaphore channel, the state of
the spawning goroutine, the state of every started poll loop (with the
states of the dispatch goroutines of its current batch), the single
value received by `Subscribe` from `chFatal` (if any goroutine's send
completed yet), and the trace of observable events so far (newest
first).  `chFatal` is unbuffered and read exactly once (`return
<-chFatal`), so a send completes only while `fatal` is still empty;
every later sender stays blocked forever, which the system models by
giving such a task or loop no further transition.
-/

/-- Phase of one dispatch goroutine.  The goroutine holds one semaphore
permit from `running` up to and including `doneWg` (the deferred
function runs `wgMessage.Done()` before `<-t.semaphore`). -/
inductive TaskPhase where
  | ready
  | running
  | handled (err : GoErr)
  | panicked (info : String)
  | reportDone
  | reportFailed (e : String)
  | sentFatal
  | doneWg
  | finished
deriving DecidableEq, Repr

/-- One dispatch goroutine: its message and its phase. -/
structure TaskState where
  msg : ReceiveMessage
  phase : TaskPhase
deriving DecidableEq, Repr

/-- Whether a phase is `doneWg`: the goroutine's `wgMessage.Done()` ran
but its `<-t.semaphore` has not. -/
def isDoneWg : TaskPhase → Bool
  | .doneWg => true
  | _ => false

/-- Phase of one poll loop: about to call `ReceiveMessages`, waiting on
`wgMessage.Wait()` while its batch's goroutines run, blocked sending a
fetch error on `chFatal`, or returned after that send completed. -/
inductive LoopPhase where
  | toFetch
  | draining (tasks : List TaskState)
  | fatalPendingL (e : String)
  | deadL
deriving DecidableEq, Repr

/-- One poll loop: the queue name of its registry entry, the identifier
the spawner resolved for it (`id`, also passed as `queueID`), its
registry entry, how many `ReceiveMessages` calls it has issued, and its
phase. -/
structure LoopState where
  queueName : String
  queueID : String
  entry : HandlerEntry
  fetchCount : Nat
  phase : LoopPhase

/-- State of the spawning goroutine of `Subscribe`: still iterating the
registry (with the remaining entries), blocked sending a `GetQueueID`
error on `chFatal`, or returned. -/
inductive SpawnerState where
  | spawning (remaining : List (String × HandlerEntry))
  | fatalPendingS (e : String)
  | deadS

/-- Observable events of a run, recorded newest first. -/
inductive Event where
  | resolve (name : String) (id : String) (err : GoErr)
  | fetch (queueName queueID : String) (idx : Nat) (msgs : List ReceiveMessage) (err : GoErr)
  | handlerStart (queueName : String) (msg : ReceiveMessage)
  | handlerEnd (queueName : String) (msg : ReceiveMessage) (err : GoErr)
  | recovered (queueName : String) (msg : ReceiveMessage) (info : String)
  | reportSuccessCall (queueName queueID receiptHandle : String) (err : GoErr)
  | reportFailureCall (queueName queueID receiptHandle : String) (waitTime : Int) (err : GoErr)
  | fatalDelivered (e : GoErr)
  | taskDone (queueName : String) (msg : ReceiveMessage)
deriving DecidableEq, Repr

/-- Global state of one run of `Subscribe`.  `lingering` holds dispatch
goroutines whose `wgMessage.Done()` already ran (so their poll loop may
have moved on to its next fetch) but whose deferred `<-t.semaphore` has
not completed yet: they still hold a semaphore permit. -/
structure EngineState where
  limit : Nat
  sem : Nat
  spawner : SpawnerState
  loops : List LoopState
  lingering : List TaskState
  fatal : Option GoErr
  trace : List Event

/-- Initial state of `Subscribe` on a subscriber value: semaphore empty,
no loops started, the spawning goroutine about to iterate the whole
registry, nothing received from `chFatal`.  The semaphore capacity is
the channel capacity `ConcurrencyMessageHandleLimit` fixed at
construction. -/
def initState (sub : SubscriberData) : EngineState :=
  { limit := sub.option.concurrencyMessageHandleLimit.toNat
    sem := 0
    spawner := .spawning sub.handlers
    loops := []
    lingering := []
    fatal := none
    trace := [] }

/-- Small-step transition relation of `Subscribe`, parameterised by the
client oracle.  Each constructor is one atomic action of one goroutine. -/
inductive Step (o : Oracle) : EngineState → EngineState → Prop
  /-- The spawning goroutine resolves the next registry entry's queue
  name successfully and starts its poll loop. -/
  | resolveOk (s : EngineState) (n : String) (ent : HandlerEntry)
      (rest : List (String × HandlerEntry)) (id : String)
      (hs : s.spawner = .spawning ((n, ent) :: rest))
      (ho : o.getQueueID n = (id, none)) :
      Step o s { s with
        spawner := .spawning rest
        loops := s.loops ++ [⟨n, id, ent, 0, .toFetch⟩]
        trace := .resolve n id none :: s.trace }
  /-- The spawning goroutine gets a non-nil error from `GetQueueID` and
  moves to the blocking `chFatal <- err` send. -/
  | resolveErr (s : EngineState) (n : String) (ent : HandlerEntry)
      (rest : List (String × HandlerEntry)) (id : String) (e : String)
      (hs : s.spawner = .spawning ((n, ent) :: rest))
      (ho : o.getQueueID n = (id, some e)) :
      Step o s { s with
        spawner := .fatalPendingS e
        trace := .resolve n id (some e) :: s.trace }
  /-- The spawning goroutine's `chFatal` send completes (possible only
  while `Subscribe` is still receiving) and the goroutine returns. -/
  | spawnerDeliver (s : EngineState) (e : String)
      (hs : s.spawner = .fatalPendingS e)
      (hf : s.fatal = none) :
      Step o s { s with
        spawner := .deadS
        fatal := some (some e)
        trace := .fatalDelivered (some e) :: s.trace }
  /-- A poll loop's `ReceiveMessages` call returns a batch with a nil
  error; the loop spawns one dispatch goroutine per message and enters
  `wgMessage.Wait()`. -/
  | fetchOk (s : EngineState) (i : Nat) (l : LoopState) (msgs : List ReceiveMessage)
      (hl : s.loops.get? i = some l)
      (hp : l.phase = .toFetch)
      (ho : o.receive l.queueID l.fetchCount = (msgs, none)) :
      Step o s { s with
        loops := s.loops.set i { l with
          fetchCount := l.fetchCount + 1
          phase := .draining (msgs.map fun m => ⟨m, .ready⟩) }
        trace := .fetch l.queueName l.queueID l.fetchCount msgs none :: s.trace }
  /-- A poll loop's `ReceiveMessages` call returns a non-nil error; the
  loop moves to the blocking `chFatal <- err` send. -/
  | fetchErr (s : EngineState) (i : Nat) (l : LoopState) (msgs : List ReceiveMessage) (e : String)
      (hl : s.loops.get? i = some l)
      (hp : l.phase = .toFetch)
      (ho : o.receive l.queueID l.fetchCount = (msgs, some e)) :
      Step o s { s with
        loops := s.loops.set i { l with phase := .fatalPendingL e }
        trace := .fetch l.queueName l.queueID l.fetchCount msgs (some e) :: s.trace }
  /-- A poll loop's `chFatal` send completes and the loop returns. -/
  | loopDeliver (s : EngineState) (i : Nat) (l : LoopState) (e : String)
      (hl : s.loops.get? i = some l)
      (hp : l.phase = .fatalPendingL e)
      (hf : s.fatal = none) :
      Step o s { s with
        loops := s.loops.set i { l with phase := .deadL }
        fatal := some (some e)
        trace := .fatalDelivered (some e) :: s.trace }
  /-- A poll loop's `wgMessage.Wait()` returns: every dispatch goroutine
  of the batch has called `wgMessage.Done()`.  The loop iterates. -/
  | drainDone (s : EngineState) (i : Nat) (l : LoopState) (ts : List TaskState)
      (hl : s.loops.get? i = some l)
      (hp : l.phase = .draining ts)
      (hdone : ∀ t ∈ ts, t.phase = .doneWg ∨ t.phase = .finished) :
      Step o s { s with
        loops := s.loops.set i { l with phase := .toFetch }
        lingering := s.lingering ++ ts.filter fun t => isDoneWg t.phase }
  /-- A dispatch goroutine's `t.semaphore <- 1` send completes (the
  channel has spare capacity) and the handler invocation starts. -/
  | acquire (s : EngineState) (i : Nat) (l : LoopState) (ts : List TaskState)
      (j : Nat) (t : TaskState)
      (hl : s.loops.get? i = some l)
      (hp : l.phase = .draining ts)
      (ht : ts.get? j = some t)
      (htp : t.phase = .ready)
      (hsem : s.sem < s.limit) :
      Step o s { s with
        sem := s.sem + 1
        loops := s.loops.set i { l with
          phase := .draining (ts.set j { t with phase := .running }) }
        trace := .handlerStart l.queueName t.msg :: s.trace }
  /-- The handler invocation returns an error value (possibly nil). -/
  | handlerRet (s : EngineState) (i : Nat) (l : LoopState) (ts : List TaskState)
      (j : Nat) (t : TaskState) (err : GoErr)
      (hl : s.loops.get? i = some l)
      (hp : l.phase = .draining ts)
      (ht : ts.get? j = some t)
      (htp : t.phase = .running)
      (hh : applyHandler l.entry t.msg = .ret err) :
      Step o s { s with
        loops := s.loops.set i { l with
          phase := .draining (ts.set j { t with phase := .handled err }) }
        trace := .handlerEnd l.queueName t.msg err :: s.trace }
  /-- The handler invocation panics; the deferred `recover` picks the
  panic information up. -/
  | handlerPanic (s : EngineState) (i : Nat) (l : LoopState) (ts : List TaskState)
      (j : Nat) (t : TaskState) (info : String)
      (hl : s.loops.get? i = some l)
      (hp : l.phase = .draining ts)
      (ht : ts.get? j = some t)
      (htp : t.phase = .running)
      (hh : applyHandler l.entry t.msg = .panics info) :
      Step o s { s with
        loops := s.loops.set i { l with
          phase := .draining (ts.set j { t with phase := .panicked info }) }
        trace := .recovered l.queueName t.msg info :: s.trace }
  /-- Handler returned nil: `ReportSuccessMessage` is called with the
  resolved identifier and the receipt handle and returns a nil error. -/
  | reportSuccOk (s : EngineState) (i : Nat) (l : LoopState) (ts : List TaskState)
      (j : Nat) (t : TaskState)
      (hl : s.loops.get? i = some l)
      (hp : l.phase = .draining ts)
      (ht : ts.get? j = some t)
      (htp : t.phase = .handled none)
      (ho : o.reportSuccess l.queueID t.msg.receiptHandle = none) :
      Step o s { s with
        loops := s.loops.set i { l with
          phase := .draining (ts.set j { t with phase := .reportDone }) }
        trace := .reportSuccessCall l.queueName l.queueID t.msg.receiptHandle none :: s.trace }
  /-- Handler returned nil: `ReportSuccessMessage` returns a non-nil
  error; the goroutine moves to the blocking `chFatal <- err` send. -/
  | reportSuccErr (s : EngineState) (i : Nat) (l : LoopState) (ts : List TaskState)
      (j : Nat) (t : TaskState) (e : String)
      (hl : s.loops.get? i = some l)
      (hp : l.phase = .draining ts)
      (ht : ts.get? j = some t)
      (htp : t.phase = .handled none)
      (ho : o.reportSuccess l.queueID t.msg.receiptHandle = some e) :
      Step o s { s with
        loops := s.loops.set i { l with
          phase := .draining (ts.set j { t with phase := .reportFailed e }) }
        trace := .reportSuccessCall l.queueName l.queueID t.msg.receiptHandle (some e) :: s.trace }
  /-- Handler returned a non-nil error: `ReportFailureMessage` is called
  with the resolved identifier, the receipt handle and the registered
  `WaitTime` and returns a nil error. -/
  | reportFailOk (s : EngineState) (i : Nat) (l : LoopState) (ts : List TaskState)
      (j : Nat) (t : TaskState) (herr : String)
      (hl : s.loops.get? i = some l)
      (hp : l.phase = .draining ts)
      (ht : ts.get? j = some t)
      (htp : t.phase = .handled (some herr))
      (ho : o.reportFailure l.queueID t.msg.receiptHandle l.entry.option.waitTime = none) :
      Step o s { s with
        loops := s.loops.set i { l with
          phase := .draining (ts.set j { t with phase := .reportDone }) }
        trace := .reportFailureCall l.queueName l.queueID t.msg.receiptHandle
          l.entry.option.waitTime none :: s.trace }
  /-- Handler returned a non-nil error: `ReportFailureMessage` returns a
  non-nil error; the goroutine moves to the blocking `chFatal` send. -/
  | reportFailErr (s : EngineState) (i : Nat) (l : LoopState) (ts : List TaskState)
      (j : Nat) (t : TaskState) (herr : String) (e : String)
      (hl : s.loops.get? i = some l)
      (hp : l.phase = .draining ts)
      (ht : ts.get? j = some t)
      (htp : t.phase = .handled (some herr))
      (ho : o.reportFailure l.queueID t.msg.receiptHandle l.entry.option.waitTime = some e) :
      Step o s { s with
        loops := s.loops.set i { l with
          phase := .draining (ts.set j { t with phase := .reportFailed e }) }
        trace := .reportFailureCall l.queueName l.queueID t.msg.receiptHandle
          l.entry.option.waitTime (some e) :: s.trace }
  /-- A dispatch goroutine whose recover picked up a panic completes its
  `chFatal <- errors.New(fmt.Sprint(info))` send. -/
  | taskDeliverPanic (s : EngineState) (i : Nat) (l : LoopState) (ts : List TaskState)
      (j : Nat) (t : TaskState) (info : String)
      (hl : s.loops.get? i = some l)
      (hp : l.phase = .draining ts)
      (ht : ts.get? j = some t)
      (htp : t.phase = .panicked info)
      (hf : s.fatal = none) :
      Step o s { s with
        loops := s.loops.set i { l with
          phase := .draining (ts.set j { t with phase := .sentFatal }) }
        fatal := some (some info)
        trace := .fatalDelivered (some info) :: s.trace }
  /-- A dispatch goroutine whose report call failed completes its
  `chFatal <- err` send. -/
  | taskDeliverReport (s : EngineState) (i : Nat) (l : LoopState) (ts : List TaskState)
      (j : Nat) (t : TaskState) (e : String)
      (hl : s.loops.get? i = some l)
      (hp : l.phase = .draining ts)
      (ht : ts.get? j = some t)
      (htp : t.phase = .reportFailed e)
      (hf : s.fatal = none) :
      Step o s { s with
        loops := s.loops.set i { l with
          phase := .draining (ts.set j { t with phase := .sentFatal }) }
        fatal := some (some e)
        trace := .fatalDelivered (some e) :: s.trace }
  /-- The deferred function of a dispatch goroutine runs
  `wgMessage.Done()` (after a successful report, or after its `chFatal`
  send completed). -/
  | wgDone (s : EngineState) (i : Nat) (l : LoopState) (ts : List TaskState)
      (j : Nat) (t : TaskState)
      (hl : s.loops.get? i = some l)
      (hp : l.phase = .draining ts)
      (ht : ts.get? j = some t)
      (htp : t.phase = .reportDone ∨ t.phase = .sentFatal) :
      Step o s { s with
        loops := s.loops.set i { l with
          phase := .draining (ts.set j { t with phase := .doneWg }) }
        trace := .taskDone l.queueName t.msg :: s.trace }
  /-- The deferred function's `<-t.semaphore` receive completes,
  releasing the permit. -/
  | release (s : EngineState) (i : Nat) (l : LoopState) (ts : List TaskState)
      (j : Nat) (t : TaskState)
      (hl : s.loops.get? i = some l)
      (hp : l.phase = .draining ts)
      (ht : ts.get? j = some t)
      (htp : t.phase = .doneWg) :
      Step o s { s with
        sem := s.sem - 1
        loops := s.loops.set i { l with
          phase := .draining (ts.set j { t with phase := .finished }) }}
  /-- The deferred `<-t.semaphore` of a goroutine whose poll loop already
  moved on completes, releasing the permit. -/
  | lingeringRelease (s : EngineState) (k : Nat) (t : TaskState)
      (ht : s.lingering.get? k = some t)
      (htp : t.phase = .doneWg) :
      Step o s { s with
        sem := s.sem - 1
        lingering := s.lingering.set k { t with phase := .finished }}

/-- A state a run of `Subscribe` on `sub` against oracle `o` can reach. -/
def Reachable (o : Oracle) (sub : SubscriberData) (s : EngineState) : Prop :=
  Relation.ReflTransGen (Step o) (initState sub) s

/-- The value `Subscribe` returns: the first error received from
`chFatal`.  While `fatal` is `none`, `Subscribe` is still blocked on
`return <-chFatal` — the model has no other way for `Subscribe` to
return. -/
def subscribeReturn (s : EngineState) : Option GoErr :=
  s.fatal

/-- True of the phases in which a dispatch goroutine holds a semaphore
permit: from the completed `t.semaphore <- 1` up to the deferred
`<-t.semaphore`. -/
def holderPhase : TaskPhase → Bool
  | .ready => false
  | .finished => false
  | _ => true

/-- True exactly while the handler invocation is executing. -/
def runningPhase : TaskPhase → Bool
  | .running => true
  | _ => false

/-- Count of the elements of a list satisfying a Boolean predicate,
written as a sum so that update lemmas are uniform. -/
def countB (p : α → Bool) (ls : List α) : Nat :=
  (ls.map fun a => if p a then 1 else 0).sum

/-- Number of semaphore permits held by the dispatch goroutines of one
poll loop. -/
def loopHolders (l : LoopState) : Nat :=
  match l.phase with
  | .draining ts => countB (fun t => holderPhase t.phase) ts
  | _ => 0

/-- Number of handler invocations of one poll loop currently executing. -/
def loopRunning (l : LoopState) : Nat :=
  match l.phase with
  | .draining ts => countB (fun t => runningPhase t.phase) ts
  | _ => 0

/-- Number of semaphore permits held, across all poll loops and the
goroutines whose loop already moved on. -/
def holders (s : EngineState) : Nat :=
  (s.loops.map loopHolders).sum + countB (fun t => holderPhase t.phase) s.lingering

/-- Number of handler invocations currently executing, across all poll
loops. -/
def runningCount (s : EngineState) : Nat :=
  (s.loops.map loopRunning).sum

/-- Semaphore invariant of one state. -/
def SemInv (s : EngineState) : Prop :=
  s.sem = holders s ∧ s.sem ≤ s.limit

/-- Whether an event is a completed delivery on `chFatal`. -/
def isFatalEvent : Event → Bool
  | .fatalDelivered _ => true
  | _ => false

/-- Invariant of the unbuffered, once-received `chFatal` channel: while
`Subscribe` has received nothing, no delivery has ever completed; once it
has received a value, exactly one delivery completed, that delivery
carried the received value, and the value is a non-nil error. -/
def FatalInv (s : EngineState) : Prop :=
  (s.fatal = none → countB isFatalEvent s.trace = 0) ∧
  (∀ v, s.fatal = some v →
    countB isFatalEvent s.trace = 1 ∧ Event.fatalDelivered v ∈ s.trace ∧ v ≠ none)

/-- Registry key of a poll loop: the registry entry it was started for. -/
def loopKey (l : LoopState) : String × HandlerEntry :=
  (l.queueName, l.entry)

/-- The queue names of the `GetQueueID` calls recorded in a trace,
newest first. -/
def resolveNames (tr : List Event) : List String :=
  tr.filterMap fun e =>
    match e with
    | .resolve n _ _ => some n
    | _ => none

/-- Invariant of the spawning goroutine: the started poll loops are
exactly the registry entries already iterated (in order), all of which
resolved without error; when iteration stopped at a `GetQueueID` error,
the failing entry's position and error are remembered; the recorded
`GetQueueID` calls are exactly the consumed entries. -/
def SpawnInv (o : Oracle) (sub : SubscriberData) (s : EngineState) : Prop :=
  match s.spawner with
  | .spawning rest => ∃ pre, sub.handlers = pre ++ rest ∧
      s.loops.map loopKey = pre ∧
      (∀ p ∈ pre, (o.getQueueID p.1).2 = none) ∧
      resolveNames s.trace = (pre.map Prod.fst).reverse
  | .fatalPendingS e => ∃ pre n ent rest, sub.handlers = pre ++ (n, ent) :: rest ∧
      s.loops.map loopKey = pre ∧
      (∀ p ∈ pre, (o.getQueueID p.1).2 = none) ∧
      (o.getQueueID n).2 = some e ∧
      resolveNames s.trace = (pre.map Prod.fst ++ [n]).reverse
  | .deadS => ∃ pre n ent rest e, sub.handlers = pre ++ (n, ent) :: rest ∧
      s.loops.map loopKey = pre ∧
      (∀ p ∈ pre, (o.getQueueID p.1).2 = none) ∧
      (o.getQueueID n).2 = some e ∧ s.fatal ≠ none ∧
      resolveNames s.trace = (pre.map Prod.fst ++ [n]).reverse

/-- Invariant of the started poll loops: each was started for a registry
entry, with the identifier `GetQueueID` resolved for its queue name
(without error) before the loop started. -/
def LoopsInv (o : Oracle) (sub : SubscriberData) (ls : List LoopState) : Prop :=
  ∀ l ∈ ls, (l.queueName, l.entry) ∈ sub.handlers ∧
    o.getQueueID l.queueName = (l.queueID, none)

/-- Per-event soundness: every recorded client call used the resolved
identifier of its loop's queue name and agrees with the oracle, every
handler run used the registry entry of the queue the message was fetched
from, and every failure report used that entry's registered `WaitTime`. -/
def EventOK (o : Oracle) (sub : SubscriberData) (e : Event) : Prop :=
  match e with
  | .resolve n id err => o.getQueueID n = (id, err)
  | .fetch qn qid idx msgs err =>
      o.getQueueID qn = (qid, none) ∧ o.receive qid idx = (msgs, err)
  | .handlerStart _ _ => True
  | .handlerEnd qn msg err =>
      ∃ ent, (qn, ent) ∈ sub.handlers ∧ applyHandler ent msg = .ret err
  | .recovered qn msg info =>
      ∃ ent, (qn, ent) ∈ sub.handlers ∧ applyHandler ent msg = .panics info
  | .reportSuccessCall qn qid rh err =>
      o.getQueueID qn = (qid, none) ∧ o.reportSuccess qid rh = err
  | .reportFailureCall qn qid rh wt err =>
      o.getQueueID qn = (qid, none) ∧
      (∃ ent, (qn, ent) ∈ sub.handlers ∧ wt = ent.option.waitTime) ∧
      o.reportFailure qid rh wt = err
  | .fatalDelivered _ => True
  | .taskDone _ _ => True

/-- All recorded events are sound. -/
def EventsInv (o : Oracle) (sub : SubscriberData) (tr : List Event) : Prop :=
  ∀ e ∈ tr, EventOK o sub e

/-- An event that is a terminal outcome for a message: a completed
report call with its receipt handle, or a recovered abnormal termination
of its dispatch goroutine. -/
def TerminalFor (m : ReceiveMessage) (e : Event) : Prop :=
  (∃ qn qid err, e = .reportSuccessCall qn qid m.receiptHandle err) ∨
  (∃ qn qid wt err, e = .reportFailureCall qn qid m.receiptHandle wt err) ∨
  (∃ qn info, e = .recovered qn m info)

/-- Phases from which the message has reached a terminal outcome (its
report call completed — successfully or not — or its panic was
recovered). -/
def terminalPhase : TaskPhase → Bool
  | .ready => false
  | .running => false
  | .handled _ => false
  | _ => true

/-- Every message of the batch the oracle returns for fetch number `k`
on `qid` has a terminal event in the trace. -/
def BatchTerm (o : Oracle) (tr : List Event) (qid : String) (k : Nat) : Prop :=
  ∀ msgs, o.receive qid k = (msgs, none) → ∀ m ∈ msgs, ∃ e ∈ tr, TerminalFor m e

/-- Number of fetches of this loop whose batch must already be fully
terminal: all of them when the loop is about to fetch again, all but the
current one while it drains. -/
def loopPastBound (l : LoopState) : Nat :=
  match l.phase with
  | .toFetch => l.fetchCount
  | .draining _ => l.fetchCount - 1
  | _ => 0

/-- Batch bookkeeping of one loop against a trace: a draining loop's
tasks are exactly the batch of its latest fetch, tasks in a terminal
phase have a terminal event in the trace, and every earlier batch is
fully terminal. -/
def LoopBatchInv (o : Oracle) (tr : List Event) (l : LoopState) : Prop :=
  (∀ ts, l.phase = .draining ts →
    1 ≤ l.fetchCount ∧
    o.receive l.queueID (l.fetchCount - 1) = (ts.map TaskState.msg, none) ∧
    ∀ t ∈ ts, terminalPhase t.phase = true → ∃ e ∈ tr, TerminalFor t.msg e) ∧
  (∀ k, k < loopPastBound l → BatchTerm o tr l.queueID k)

/-- Batch bookkeeping of all loops. -/
def BatchInv (o : Oracle) (tr : List Event) (ls : List LoopState) : Prop :=
  ∀ l ∈ ls, LoopBatchInv o tr l

/-- Trace-level form of the draining barrier: at the point of any
recorded fetch numbered `idx`, every batch of an earlier fetch on the
same identifier was already fully terminal. -/
def TraceFetchInv (o : Oracle) (tr : List Event) : Prop :=
  ∀ a qn qid idx msgs err b, tr = a ++ Event.fetch qn qid idx msgs err :: b →
    ∀ k, k < idx → BatchTerm o b qid k

/-- Conjunction of the structural invariants of a run (other than the
semaphore and fatal-channel invariants, stated separately). -/
def GlobalInv (o : Oracle) (sub : SubscriberData) (s : EngineState) : Prop :=
  SpawnInv o sub s ∧ LoopsInv o sub s.loops ∧ EventsInv o sub s.trace ∧
    BatchInv o s.trace s.loops ∧ TraceFetchInv o s.trace

/-- A simple concrete oracle used to instantiate theorems: every name
resolves to `"qid"`, every fetch returns the empty batch, every report
succeeds. -/
def oEmpty : Oracle :=
  { getQueueID := fun _ => (("qid"), none)
    receive := fun _ _ => ([], none)
    reportSuccess := fun _ _ => none
    reportFailure := fun _ _ _ => none }

/-- A concrete message used to instantiate theorems. -/
def msg1 : ReceiveMessage :=
  { messageID := ("m1"), receiptHandle := ("rh1"), body := some ("b1") }

/-- A concrete handler that always succeeds. -/
def okHandler : HandlerFn := fun _ _ => .ret none

/-- A concrete handler that always returns a (business) error. -/
def errHandler : HandlerFn := fun _ _ => .ret (some ("boom"))

/-- A concrete registry entry used to instantiate theorems. -/
def entq : HandlerEntry := ⟨some okHandler, ⟨0⟩⟩

/-- Concrete queue names and identifier used to instantiate theorems. -/
def nameQ1 : String := ("q1")

def nameBad : String := ("bad")

def nameQ2 : String := ("q2")

def idQ : String := ("qid")

def errResolve : String := ("resolve failed")

/-- A concrete subscriber value with one registered queue and
concurrency limit 2, used to instantiate theorems. -/
def sub1 : SubscriberData :=
  { handlers := [(nameQ1, entq)]
    option := { concurrencyMessageHandleLimit := 2 } }

/-- A concrete oracle whose first fetch on `"qid"` returns one message
and whose later fetches return empty batches. -/
def oOne : Oracle :=
  { getQueueID := fun _ => (idQ, none)
    receive := fun _ n => if n = 0 then ([msg1], none) else ([], none)
    reportSuccess := fun _ _ => none
    reportFailure := fun _ _ _ => none }

/-- A concrete oracle for which exactly the name `"bad"` fails to
resolve. -/
def oFail : Oracle :=
  { getQueueID := fun n => if n = nameBad then (("") , some errResolve) else (idQ, none)
    receive := fun _ _ => ([], none)
    reportSuccess := fun _ _ => none
    reportFailure := fun _ _ _ => none }

/-- A concrete subscriber with three registered queues, the second of
which fails to resolve under `oFail`. -/
def sub2 : SubscriberData :=
  { handlers := [(nameQ1, entq), (nameBad, entq), (nameQ2, entq)]
    option := { concurrencyMessageHandleLimit := 2 } }

/-- The state of the run of `Subscribe` on `sub1` against `oOne` after
the spawner started the loop of `"q1"`, the loop fetched its first
batch (one message), drained it through a successful handler run and a
successful success report, and then issued its second fetch (an empty
batch).  Used to instantiate the draining-barrier theorem. -/
def sC3 : EngineState :=
  { limit := 2
    sem := 0
    spawner := .spawning []
    loops := [⟨nameQ1, idQ, entq, 2, .draining []⟩]
    lingering := []
    fatal := none
    trace := [.fetch nameQ1 idQ 1 [] none,
              .taskDone nameQ1 msg1,
              .reportSuccessCall nameQ1 idQ msg1.receiptHandle none,
              .handlerEnd nameQ1 msg1 none,
              .handlerStart nameQ1 msg1,
              .fetch nameQ1 idQ 0 [msg1] none,
              .resolve nameQ1 idQ none] }

/-!
General list bookkeeping lemmas used by the invariant proofs.
-/

theorem sum_map_set {α : Type _} (f : α → Nat) (ls : List α) (i : Nat) (l x : α)
    (h : ls.get? i = some l) :
    ((ls.set i x).map f).sum + f l = (ls.map f).sum + f x := by
  induction ls generalizing i with
  | nil => simp at h
  | cons a rest ih =>
    cases i with
    | zero =>
      have ha : a = l := by simpa using h
      subst ha
      simp only [List.set, List.map, List.sum_cons]
      omega
    | succ i =>
      have hrec := ih i (by simpa using h)
      simp only [List.set, List.map, List.sum_cons]
      omega

theorem countB_set {α : Type _} (p : α → Bool) (ls : List α) (i : Nat) (l x : α)
    (h : ls.get? i = some l) :
    countB p (ls.set i x) + (if p l then 1 else 0) = countB p ls + (if p x then 1 else 0) :=
  sum_map_set (fun a => if p a then 1 else 0) ls i l x h

theorem countB_append {α : Type _} (p : α → Bool) (l1 l2 : List α) :
    countB p (l1 ++ l2) = countB p l1 + countB p l2 := by
  simp [countB]

theorem countB_pos {α : Type _} (p : α → Bool) (ls : List α) (k : Nat) (t : α)
    (h : ls.get? k = some t) (hp : p t = true) : 1 ≤ countB p ls := by
  induction ls generalizing k with
  | nil => simp at h
  | cons a rest ih =>
    cases k with
    | zero =>
      simp only [List.get?] at h
      cases h
      simp [countB, hp]
    | succ k =>
      simp only [List.get?] at h
      have := ih k h
      simp only [countB, List.map, List.sum_cons] at *
      omega

theorem countB_le_countB {α : Type _} (p q : α → Bool) (ls : List α)
    (h : ∀ x ∈ ls, p x = true → q x = true) :
    countB p ls ≤ countB q ls := by
  induction ls with
  | nil => simp [countB]
  | cons a rest ih =>
    have ha := h a (by simp)
    have hr := ih fun x hx => h x (by simp [hx])
    have hle : (if p a then 1 else 0) ≤ (if q a then 1 else 0) := by
      cases hpa : p a with
      | false => simp
      | true => simp [ha hpa]
    simp only [countB, List.map, List.sum_cons] at *
    omega

theorem sum_map_le_sum_map {α : Type _} (f g : α → Nat) (ls : List α)
    (h : ∀ x ∈ ls, f x ≤ g x) :
    (ls.map f).sum ≤ (ls.map g).sum := by
  induction ls with
  | nil => simp
  | cons a rest ih =>
    have ha := h a (by simp)
    have hr := ih fun x hx => h x (by simp [hx])
    simp only [List.map, List.sum_cons]
    omega

theorem mem_of_mem_set {α : Type _} (ls : List α) (i : Nat) (x y : α)
    (h : y ∈ ls.set i x) : y ∈ ls ∨ y = x := by
  induction ls generalizing i with
  | nil => simp [List.set] at h
  | cons a rest ih =>
    cases i with
    | zero =>
      simp only [List.set] at h
      rcases List.mem_cons.1 h with h | h
      · right; exact h
      · left; exact List.mem_cons_of_mem _ h
    | succ i =>
      simp only [List.set] at h
      rcases List.mem_cons.1 h with h | h
      · left; simp [h]
      · rcases ih i h with h | h
        · left; exact List.mem_cons_of_mem _ h
        · right; exact h

theorem map_set_congr {α β : Type _} (f : α → β) (ls : List α) (i : Nat) (l x : α)
    (h : ls.get? i = some l) (hf : f x = f l) :
    (ls.set i x).map f = ls.map f := by
  induction ls generalizing i with
  | nil => simp at h
  | cons a rest ih =>
    cases i with
    | zero =>
      simp only [List.get?] at h
      cases h
      simp [List.set, hf]
    | succ i =>
      simp only [List.get?] at h
      simp [List.set, ih i h]

/-- In a fully-drained batch (every goroutine `doneWg` or `finished`),
the goroutines still holding a permit are exactly the `doneWg` ones. -/
theorem countB_holder_filter_done (ts : List TaskState)
    (h : ∀ t ∈ ts, t.phase = .doneWg ∨ t.phase = .finished) :
    countB (fun t => holderPhase t.phase) (ts.filter fun t => isDoneWg t.phase)
      = countB (fun t => holderPhase t.phase) ts := by
  induction ts with
  | nil => rfl
  | cons a rest ih =>
    have ha := h a (by simp)
    have hr := ih fun t ht => h t (by simp [ht])
    rcases ha with ha | ha <;>
      simp [List.filter_cons, ha, countB, isDoneWg, holderPhase] at * <;> omega

theorem map_msg_ready (msgs : List ReceiveMessage) :
    (msgs.map fun m => (⟨m, .ready⟩ : TaskState)).map TaskState.msg = msgs := by
  induction msgs with
  | nil => rfl
  | cons a r ih =>
    simp only [List.map_cons]
    rw [ih]

/-- A batch of freshly spawned goroutines holds no permit. -/
theorem countB_holder_ready (msgs : List ReceiveMessage) :
    countB (fun t => holderPhase t.phase)
      (msgs.map fun m => (⟨m, .ready⟩ : TaskState)) = 0 := by
  induction msgs with
  | nil => rfl
  | cons m rest ih => simpa [countB, holderPhase] using ih

/-!
The semaphore invariant: the occupancy of the semaphore channel equals
the number of goroutines between their completed `t.semaphore <- 1` and
their `<-t.semaphore`, and never exceeds the channel capacity.
-/

theorem step_limit_eq {o : Oracle} {s s' : EngineState} (hs : Step o s s') :
    s'.limit = s.limit := by
  cases hs <;> rfl

/-- Convenience: effect on the loops' permit count of replacing the
phase of one task of one draining loop. -/
theorem holders_loops_set (s : EngineState) (i : Nat) (l : LoopState)
    (ts : List TaskState) (j : Nat) (t : TaskState) (p' : TaskPhase)
    (hl : s.loops.get? i = some l) (hp : l.phase = .draining ts)
    (ht : ts.get? j = some t) :
    ((s.loops.set i { l with phase := .draining (ts.set j { t with phase := p' }) }).map
        loopHolders).sum + (if holderPhase t.phase then 1 else 0)
      = (s.loops.map loopHolders).sum + (if holderPhase p' then 1 else 0) := by
  have h1 := sum_map_set loopHolders s.loops i l
    { l with phase := .draining (ts.set j { t with phase := p' }) } hl
  have h2 : countB (fun t => holderPhase t.phase) (ts.set j { t with phase := p' })
      + (if holderPhase t.phase then 1 else 0)
      = countB (fun t => holderPhase t.phase) ts + (if holderPhase p' then 1 else 0) :=
    countB_set (fun t => holderPhase t.phase) ts j t { t with phase := p' } ht
  have h3 : loopHolders l = countB (fun t => holderPhase t.phase) ts := by
    unfold loopHolders
    rw [hp]
  have h4 : loopHolders { l with phase := .draining (ts.set j { t with phase := p' }) }
      = countB (fun t => holderPhase t.phase) (ts.set j { t with phase := p' }) := rfl
  rw [h4, h3] at h1
  omega

theorem semInv_step {o : Oracle} {s s' : EngineState} (h : SemInv s) (hs : Step o s s') :
    SemInv s' := by
  obtain ⟨h1, h2⟩ := h
  cases hs with
  | resolveOk n ent rest id hs' ho =>
    refine ⟨?_, h2⟩
    simp only [holders, List.map_append, List.sum_append] at *
    simpa [loopHolders] using h1
  | resolveErr n ent rest id e hs' ho => exact ⟨h1, h2⟩
  | spawnerDeliver e hs' hf => exact ⟨h1, h2⟩
  | fetchOk i l msgs hl hp ho =>
    refine ⟨?_, h2⟩
    have hu := sum_map_set loopHolders s.loops i l
      { l with fetchCount := l.fetchCount + 1,
               phase := .draining (msgs.map fun m => ⟨m, .ready⟩) } hl
    have h3 : loopHolders l = 0 := by unfold loopHolders; rw [hp]
    have h4 : loopHolders { l with fetchCount := l.fetchCount + 1, phase := .draining (msgs.map fun m => (⟨m, .ready⟩ : TaskState)) } = 0 := by
      show countB (fun t => holderPhase t.phase)
        (msgs.map fun m => (⟨m, .ready⟩ : TaskState)) = 0
      exact countB_holder_ready msgs
    rw [h3, h4] at hu
    simp only [holders] at *
    omega
  | fetchErr i l msgs e hl hp ho =>
    refine ⟨?_, h2⟩
    have hu := sum_map_set loopHolders s.loops i l { l with phase := .fatalPendingL e } hl
    have h3 : loopHolders l = 0 := by unfold loopHolders; rw [hp]
    have h4 : loopHolders { l with phase := .fatalPendingL e } = 0 := rfl
    rw [h3, h4] at hu
    simp only [holders] at *
    omega
  | loopDeliver i l e hl hp hf =>
    refine ⟨?_, h2⟩
    have hu := sum_map_set loopHolders s.loops i l { l with phase := .deadL } hl
    have h3 : loopHolders l = 0 := by unfold loopHolders; rw [hp]
    have h4 : loopHolders { l with phase := .deadL } = 0 := rfl
    rw [h3, h4] at hu
    simp only [holders] at *
    omega
  | drainDone i l ts hl hp hdone =>
    refine ⟨?_, h2⟩
    have hu := sum_map_set loopHolders s.loops i l { l with phase := .toFetch } hl
    have h3 : loopHolders l = countB (fun t => holderPhase t.phase) ts := by
      unfold loopHolders; rw [hp]
    have h4 : loopHolders { l with phase := .toFetch } = 0 := rfl
    have h5 := countB_holder_filter_done ts hdone
    rw [h3, h4] at hu
    simp only [holders, countB_append] at *
    omega
  | acquire i l ts j t hl hp ht htp hsem =>
    have hu := holders_loops_set s i l ts j t .running hl hp ht
    rw [htp] at hu
    simp [holderPhase] at hu
    simp only [SemInv, holders, List.map_set] at *
    omega
  | handlerRet i l ts j t err hl hp ht htp hh =>
    have hu := holders_loops_set s i l ts j t (.handled err) hl hp ht
    rw [htp] at hu
    simp [holderPhase] at hu
    simp only [SemInv, holders, List.map_set] at *
    omega
  | handlerPanic i l ts j t info hl hp ht htp hh =>
    have hu := holders_loops_set s i l ts j t (.panicked info) hl hp ht
    rw [htp] at hu
    simp [holderPhase] at hu
    simp only [SemInv, holders, List.map_set] at *
    omega
  | reportSuccOk i l ts j t hl hp ht htp ho =>
    have hu := holders_loops_set s i l ts j t .reportDone hl hp ht
    rw [htp] at hu
    simp [holderPhase] at hu
    simp only [SemInv, holders, List.map_set] at *
    omega
  | reportSuccErr i l ts j t e hl hp ht htp ho =>
    have hu := holders_loops_set s i l ts j t (.reportFailed e) hl hp ht
    rw [htp] at hu
    simp [holderPhase] at hu
    simp only [SemInv, holders, List.map_set] at *
    omega
  | reportFailOk i l ts j t herr hl hp ht htp ho =>
    have hu := holders_loops_set s i l ts j t .reportDone hl hp ht
    rw [htp] at hu
    simp [holderPhase] at hu
    simp only [SemInv, holders, List.map_set] at *
    omega
  | reportFailErr i l ts j t herr e hl hp ht htp ho =>
    have hu := holders_loops_set s i l ts j t (.reportFailed e) hl hp ht
    rw [htp] at hu
    simp [holderPhase] at hu
    simp only [SemInv, holders, List.map_set] at *
    omega
  | taskDeliverPanic i l ts j t info hl hp ht htp hf =>
    have hu := holders_loops_set s i l ts j t .sentFatal hl hp ht
    rw [htp] at hu
    simp [holderPhase] at hu
    simp only [SemInv, holders, List.map_set] at *
    omega
  | taskDeliverReport i l ts j t e hl hp ht htp hf =>
    have hu := holders_loops_set s i l ts j t .sentFatal hl hp ht
    rw [htp] at hu
    simp [holderPhase] at hu
    simp only [SemInv, holders, List.map_set] at *
    omega
  | wgDone i l ts j t hl hp ht htp =>
    have hu := holders_loops_set s i l ts j t .doneWg hl hp ht
    have hold : holderPhase t.phase = true := by
      rcases htp with htp | htp <;> rw [htp] <;> rfl
    rw [hold] at hu
    simp [holderPhase] at hu
    simp only [SemInv, holders, List.map_set] at *
    omega
  | release i l ts j t hl hp ht htp =>
    have hu := holders_loops_set s i l ts j t .finished hl hp ht
    rw [htp] at hu
    simp [holderPhase] at hu
    simp only [SemInv, holders, List.map_set] at *
    omega
  | lingeringRelease k t ht htp =>
    have hu0 : countB (fun t => holderPhase t.phase)
          (s.lingering.set k { t with phase := .finished })
          + (if holderPhase t.phase then 1 else 0)
        = countB (fun t => holderPhase t.phase) s.lingering
          + (if holderPhase TaskPhase.finished then 1 else 0) :=
      countB_set (fun t => holderPhase t.phase) s.lingering k t
        { t with phase := .finished } ht
    rw [htp] at hu0
    have hu : countB (fun t => holderPhase t.phase)
          (s.lingering.set k { t with phase := .finished }) + 1
        = countB (fun t => holderPhase t.phase) s.lingering := hu0
    simp only [SemInv, holders, List.map_set] at *
    omega

theorem semInv_reachable {o : Oracle} {sub : SubscriberData} {s : EngineState}
    (h : Reachable o sub s) : SemInv s := by
  induction h with
  | refl => exact ⟨rfl, by simp [initState, holders, countB]⟩
  | tail hab hbc ih => exact semInv_step ih hbc

theorem limit_reachable {o : Oracle} {sub : SubscriberData} {s : EngineState}
    (h : Reachable o sub s) :
    s.limit = sub.option.concurrencyMessageHandleLimit.toNat := by
  induction h with
  | refl => rfl
  | tail hab hbc ih => rw [step_limit_eq hbc, ih]

theorem runningPhase_holder {p : TaskPhase} (h : runningPhase p = true) :
    holderPhase p = true := by
  cases p <;> simp [runningPhase, holderPhase] at *

theorem loopRunning_le_loopHolders (l : LoopState) : loopRunning l ≤ loopHolders l := by
  unfold loopRunning loopHolders
  cases l.phase with
  | draining ts =>
    exact countB_le_countB _ _ ts fun t _ ht => runningPhase_holder ht
  | toFetch => exact Nat.le_refl 0
  | fatalPendingL e => exact Nat.le_refl 0
  | deadL => exact Nat.le_refl 0

theorem runningCount_le_holders (s : EngineState) : runningCount s ≤ holders s := by
  have h := sum_map_le_sum_map loopRunning loopHolders s.loops
    fun l _ => loopRunning_le_loopHolders l
  unfold runningCount holders
  omega

/-!
Lemmas about the association-list model of the Go registry map.
-/

theorem mapFind_mapInsert_self (m : List (String × HandlerEntry)) (k : String)
    (v : HandlerEntry) : mapFind (mapInsert m k v) k = some v := by
  induction m with
  | nil => simp [mapInsert, mapFind]
  | cons p rest ih =>
    obtain ⟨k', v'⟩ := p
    by_cases hk : k' = k
    · simp [mapInsert, hk, mapFind]
    · simp [mapInsert, hk, mapFind, ih]

theorem mapFind_mapInsert_ne (m : List (String × HandlerEntry)) (k : String)
    (v : HandlerEntry) (q : String) (h : q ≠ k) :
    mapFind (mapInsert m k v) q = mapFind m q := by
  have hkq : ¬ k = q := fun hh => h hh.symm
  induction m with
  | nil => simp [mapInsert, mapFind, hkq]
  | cons p rest ih =>
    obtain ⟨k', v'⟩ := p
    by_cases hk : k' = k
    · subst hk
      simp [mapInsert, mapFind, hkq]
    · by_cases hq : k' = q
      · subst hq
        simp [mapInsert, hk, mapFind]
      · simp [mapInsert, hk, mapFind, hq, ih]

/-!
Claim theorems about construction, registration and the dispatch body.
-/

/-- C6: `NewSubscriber` returns a configuration error exactly when the
supplied `ConcurrencyMessageHandleLimit` is less than 1; in particular
construction with limit 0 fails and construction with limit 1 succeeds. -/
theorem newSubscriber_config_error :
    (∀ opt : SubscriberOption,
      (∃ e, NewSubscriber opt = .error e) ↔ opt.concurrencyMessageHandleLimit < 1) ∧
    NewSubscriber ⟨0⟩ = .error limitErrMsg ∧
    NewSubscriber ⟨1⟩ = .ok { handlers := [], option := ⟨1⟩ } := by
  refine ⟨fun opt => ⟨?_, ?_⟩, rfl, rfl⟩
  · rintro ⟨e, he⟩
    by_contra hlt
    unfold NewSubscriber at he
    rw [if_neg hlt] at he
    cases he
  · intro hlt
    refine ⟨limitErrMsg, ?_⟩
    unfold NewSubscriber
    rw [if_pos hlt]

/-- C7: `SetHandler` rejects a negative `WaitTime` with an error and
leaves the whole subscriber (in particular the registry) unchanged;
with a non-negative `WaitTime` (including 0) it succeeds, the new
binding is found under the queue name, every other name's binding is
unchanged, and the option is untouched. -/
theorem setHandler_spec (t : SubscriberData) (q : String) (h : Option HandlerFn)
    (opt : HandlerOption) :
    (opt.waitTime < 0 → SetHandler t q h opt = (some waitTimeErrMsg, t)) ∧
    (0 ≤ opt.waitTime →
      (SetHandler t q h opt).1 = none ∧
      mapFind (SetHandler t q h opt).2.handlers q = some ⟨h, opt⟩ ∧
      (∀ q', q' ≠ q →
        mapFind (SetHandler t q h opt).2.handlers q' = mapFind t.handlers q') ∧
      (SetHandler t q h opt).2.option = t.option) := by
  constructor
  · intro hneg
    unfold SetHandler
    rw [if_pos hneg]
  · intro hpos
    have hcond : ¬ opt.waitTime < 0 := not_lt.2 hpos
    unfold SetHandler
    rw [if_neg hcond]
    exact ⟨rfl, mapFind_mapInsert_self t.handlers q ⟨h, opt⟩,
      fun q' hq' => mapFind_mapInsert_ne t.handlers q ⟨h, opt⟩ q' hq', rfl⟩

theorem setHandler_spec_witness :
    SetHandler ⟨[], ⟨2⟩⟩ ("a") none ⟨-1⟩ = (some waitTimeErrMsg, ⟨[], ⟨2⟩⟩) ∧
    mapFind (SetHandler ⟨[], ⟨2⟩⟩ ("a") none ⟨0⟩).2.handlers ("a") = some ⟨none, ⟨0⟩⟩ :=
  ⟨(setHandler_spec ⟨[], ⟨2⟩⟩ ("a") none ⟨-1⟩).1 (by decide),
    (((setHandler_spec ⟨[], ⟨2⟩⟩ ("a") none ⟨0⟩).2 (by decide)).2).1⟩

/-- C1: for a dispatched message whose (non-nil) handler returns nil,
the dispatch body makes exactly one `ReportSuccessMessage` call, with
the resolved queue identifier and that message's receipt handle, and no
`ReportFailureMessage` call; when the handler returns a non-nil error it
makes exactly one `ReportFailureMessage` call, with the resolved queue
identifier, the receipt handle and the handler's registered `WaitTime`,
and no `ReportSuccessMessage` call.  This holds for every oracle, i.e.
whatever the report call itself returns. -/
theorem dispatch_report_calls (o : Oracle) (entry : HandlerEntry) (qid : String)
    (msg : ReceiveMessage) (f : HandlerFn) (hf : entry.handler = some f) :
    (f msg.messageID msg.body = .ret none →
      (runTask o entry qid msg).successCalls = [(qid, msg.receiptHandle)] ∧
      (runTask o entry qid msg).failureCalls = []) ∧
    (∀ herr, f msg.messageID msg.body = .ret (some herr) →
      (runTask o entry qid msg).failureCalls
        = [(qid, msg.receiptHandle, entry.option.waitTime)] ∧
      (runTask o entry qid msg).successCalls = []) := by
  constructor
  · intro hret
    have hah : applyHandler entry msg = .ret none := by
      unfold applyHandler
      rw [hf]
      exact hret
    unfold runTask
    rw [hah]
    cases hrs : o.reportSuccess qid msg.receiptHandle <;> exact ⟨rfl, rfl⟩
  · intro herr hret
    have hah : applyHandler entry msg = .ret (some herr) := by
      unfold applyHandler
      rw [hf]
      exact hret
    unfold runTask
    rw [hah]
    cases hrf : o.reportFailure qid msg.receiptHandle entry.option.waitTime <;> exact ⟨rfl, rfl⟩

theorem dispatch_report_calls_witness :
    (runTask oEmpty ⟨some okHandler, ⟨0⟩⟩ ("qid") msg1).successCalls
      = [(("qid"), ("rh1"))] ∧
    (runTask oEmpty ⟨some errHandler, ⟨7⟩⟩ ("qid") msg1).failureCalls
      = [(("qid"), ("rh1"), (7 : Int))] :=
  ⟨((dispatch_report_calls oEmpty ⟨some okHandler, ⟨0⟩⟩ ("qid") msg1 okHandler rfl).1
      rfl).1,
    ((dispatch_report_calls oEmpty ⟨some errHandler, ⟨7⟩⟩ ("qid") msg1 errHandler rfl).2
      ("boom") rfl).1⟩

/-- C5: a non-nil error returned by the handler (a business failure) is
never sent on `chFatal` and only triggers the `ReportFailureMessage`
call: when the handler returns (does not panic) and the report calls
succeed, the dispatch body attempts no fatal send and recovers no panic,
whatever error value the handler returned.  Conversely every value a
dispatch body sends on `chFatal` is either a recovered panic converted
to an error or a non-nil error of a report call — never the handler's
returned error value itself. -/
theorem handler_error_not_fatal (o : Oracle) (entry : HandlerEntry) (qid : String)
    (msg : ReceiveMessage) :
    (∀ f r, entry.handler = some f → f msg.messageID msg.body = .ret r →
      o.reportSuccess qid msg.receiptHandle = none →
      o.reportFailure qid msg.receiptHandle entry.option.waitTime = none →
      (runTask o entry qid msg).fatalSend = none ∧
      (runTask o entry qid msg).recoveredFrom = none) ∧
    (∀ v, (runTask o entry qid msg).fatalSend = some v →
      (∃ info, applyHandler entry msg = .panics info ∧ v = some info) ∨
      (∃ e, v = some e ∧
        (o.reportSuccess qid msg.receiptHandle = some e ∨
          o.reportFailure qid msg.receiptHandle entry.option.waitTime = some e))) := by
  constructor
  · intro f r hf hret hrs hrf
    have hah : applyHandler entry msg = .ret r := by
      unfold applyHandler
      rw [hf]
      exact hret
    cases r with
    | none =>
      have he : runTask o entry qid msg =
          { successCalls := [(qid, msg.receiptHandle)], failureCalls := []
            fatalSend := none, recoveredFrom := none } := by
        unfold runTask
        rw [hah, hrs]
      rw [he]
      exact ⟨rfl, rfl⟩
    | some herr =>
      have he : runTask o entry qid msg =
          { successCalls := []
            failureCalls := [(qid, msg.receiptHandle, entry.option.waitTime)]
            fatalSend := none, recoveredFrom := none } := by
        unfold runTask
        rw [hah, hrf]
      rw [he]
      exact ⟨rfl, rfl⟩
  · intro v hv
    cases hh : applyHandler entry msg with
    | panics info =>
      have he : runTask o entry qid msg =
          { successCalls := [], failureCalls := []
            fatalSend := some (some info), recoveredFrom := some info } := by
        unfold runTask
        rw [hh]
      rw [he] at hv
      exact Or.inl ⟨info, rfl, (Option.some.inj hv).symm⟩
    | ret r =>
      cases r with
      | none =>
        cases hrs : o.reportSuccess qid msg.receiptHandle with
        | none =>
          have he : runTask o entry qid msg =
              { successCalls := [(qid, msg.receiptHandle)], failureCalls := []
                fatalSend := none, recoveredFrom := none } := by
            unfold runTask
            rw [hh, hrs]
          rw [he] at hv
          simp at hv
        | some e =>
          have he : runTask o entry qid msg =
              { successCalls := [(qid, msg.receiptHandle)], failureCalls := []
                fatalSend := some (some e), recoveredFrom := none } := by
            unfold runTask
            rw [hh, hrs]
          rw [he] at hv
          exact Or.inr ⟨e, (Option.some.inj hv).symm, Or.inl rfl⟩
      | some herr =>
        cases hrf : o.reportFailure qid msg.receiptHandle entry.option.waitTime with
        | none =>
          have he : runTask o entry qid msg =
              { successCalls := []
                failureCalls := [(qid, msg.receiptHandle, entry.option.waitTime)]
                fatalSend := none, recoveredFrom := none } := by
            unfold runTask
            rw [hh, hrf]
          rw [he] at hv
          simp at hv
        | some e =>
          have he : runTask o entry qid msg =
              { successCalls := []
                failureCalls := [(qid, msg.receiptHandle, entry.option.waitTime)]
                fatalSend := some (some e), recoveredFrom := none } := by
            unfold runTask
            rw [hh, hrf]
          rw [he] at hv
          exact Or.inr ⟨e, (Option.some.inj hv).symm, Or.inr rfl⟩

theorem handler_error_not_fatal_witness :
    (runTask oEmpty ⟨some errHandler, ⟨7⟩⟩ ("qid") msg1).fatalSend = none :=
  (((handler_error_not_fatal oEmpty ⟨some errHandler, ⟨7⟩⟩ ("qid") msg1).1
    errHandler (some ("boom")) rfl rfl rfl rfl)).1

/-- C9: `SetHandler` accepts a nil handler function without an error (it
only validates `WaitTime`), storing the binding; dispatching a message
for that binding then panics inside the dispatch goroutine (calling a
nil Go function value), and the deferred `recover` converts the panic to
an error destined for `chFatal` — no report call is made, and the
rejection does not happen at registration time. -/
theorem nil_handler_accepted (t : SubscriberData) (q : String) (opt : HandlerOption)
    (hw : 0 ≤ opt.waitTime) (o : Oracle) (qid : String) (msg : ReceiveMessage) :
    (SetHandler t q none opt).1 = none ∧
    mapFind (SetHandler t q none opt).2.handlers q = some ⟨none, opt⟩ ∧
    runTask o ⟨none, opt⟩ qid msg =
      { successCalls := [], failureCalls := []
        fatalSend := some (some nilFuncPanicMsg)
        recoveredFrom := some nilFuncPanicMsg } := by
  refine ⟨?_, ?_, rfl⟩
  · unfold SetHandler
    rw [if_neg (not_lt.2 hw)]
  · unfold SetHandler
    rw [if_neg (not_lt.2 hw)]
    exact mapFind_mapInsert_self t.handlers q ⟨none, opt⟩

theorem nil_handler_accepted_witness :
    (SetHandler ⟨[], ⟨2⟩⟩ ("a") none ⟨0⟩).1 = none ∧
    runTask oEmpty ⟨none, ⟨0⟩⟩ ("qid") msg1 =
      { successCalls := [], failureCalls := []
        fatalSend := some (some nilFuncPanicMsg)
        recoveredFrom := some nilFuncPanicMsg } :=
  ⟨(nil_handler_accepted ⟨[], ⟨2⟩⟩ ("a") ⟨0⟩ (by decide) oEmpty ("qid") msg1).1,
    (nil_handler_accepted ⟨[], ⟨2⟩⟩ ("a") ⟨0⟩ (by decide) oEmpty ("qid") msg1).2.2⟩

/-- C2: in every reachable state of a run of `Subscribe`, the number of
handler invocations executing concurrently, summed across all queues, is
at most the `ConcurrencyMessageHandleLimit` fixed at engine
construction (the capacity of the semaphore channel). -/
theorem subscribe_concurrency_bounded (o : Oracle) (sub : SubscriberData)
    (s : EngineState) (h : Reachable o sub s) :
    runningCount s ≤ sub.option.concurrencyMessageHandleLimit.toNat := by
  obtain ⟨h1, h2⟩ := semInv_reachable h
  have hl := limit_reachable h
  have hr := runningCount_le_holders s
  omega

theorem subscribe_concurrency_bounded_witness :
    runningCount (initState sub1) ≤ sub1.option.concurrencyMessageHandleLimit.toNat :=
  subscribe_concurrency_bounded oOne sub1 (initState sub1) Relation.ReflTransGen.refl

/-!
The fatal-channel invariant and claim C4.
-/

theorem countB_cons {α : Type _} (p : α → Bool) (a : α) (ls : List α) :
    countB p (a :: ls) = (if p a then 1 else 0) + countB p ls := rfl

theorem fatalInv_cons {s s' : EngineState} {ev : Event} (h : FatalInv s)
    (ht : s'.trace = ev :: s.trace) (hf : s'.fatal = s.fatal)
    (hev : isFatalEvent ev = false) :
    FatalInv s' := by
  obtain ⟨h1, h2⟩ := h
  constructor
  · intro hn
    rw [hf] at hn
    rw [ht, countB_cons, hev, h1 hn]
    rfl
  · intro v hv
    rw [hf] at hv
    obtain ⟨hc, hm, hnn⟩ := h2 v hv
    refine ⟨?_, ?_, hnn⟩
    · rw [ht, countB_cons, hev, hc]
      rfl
    · rw [ht]
      exact List.mem_cons_of_mem _ hm

theorem fatalInv_same {s s' : EngineState} (h : FatalInv s)
    (hf : s'.fatal = s.fatal) (ht : s'.trace = s.trace) : FatalInv s' := by
  obtain ⟨h1, h2⟩ := h
  constructor
  · intro hn
    rw [hf] at hn
    rw [ht]
    exact h1 hn
  · intro v hv
    rw [hf] at hv
    rw [ht]
    exact h2 v hv

theorem fatalInv_deliver {s s' : EngineState} {e : String} (h : FatalInv s)
    (ht : s'.trace = .fatalDelivered (some e) :: s.trace)
    (hf : s.fatal = none) (hf' : s'.fatal = some (some e)) : FatalInv s' := by
  obtain ⟨h1, h2⟩ := h
  constructor
  · intro hn
    rw [hf'] at hn
    cases hn
  · intro v hv
    rw [hf'] at hv
    obtain rfl : v = some e := (Option.some.inj hv).symm
    refine ⟨?_, ?_, by simp⟩
    · rw [ht, countB_cons, h1 hf]
      rfl
    · rw [ht]
      exact List.mem_cons_self _ _

theorem fatalInv_step {o : Oracle} {s s' : EngineState} (h : FatalInv s)
    (hs : Step o s s') : FatalInv s' := by
  cases hs with
  | resolveOk n ent rest id hs' ho => exact fatalInv_cons h rfl rfl rfl
  | resolveErr n ent rest id e hs' ho => exact fatalInv_cons h rfl rfl rfl
  | spawnerDeliver e hs' hf => exact fatalInv_deliver h rfl hf rfl
  | fetchOk i l msgs hl hp ho => exact fatalInv_cons h rfl rfl rfl
  | fetchErr i l msgs e hl hp ho => exact fatalInv_cons h rfl rfl rfl
  | loopDeliver i l e hl hp hf => exact fatalInv_deliver h rfl hf rfl
  | drainDone i l ts hl hp hdone => exact fatalInv_same h rfl rfl
  | acquire i l ts j t hl hp ht htp hsem => exact fatalInv_cons h rfl rfl rfl
  | handlerRet i l ts j t err hl hp ht htp hh => exact fatalInv_cons h rfl rfl rfl
  | handlerPanic i l ts j t info hl hp ht htp hh => exact fatalInv_cons h rfl rfl rfl
  | reportSuccOk i l ts j t hl hp ht htp ho => exact fatalInv_cons h rfl rfl rfl
  | reportSuccErr i l ts j t e hl hp ht htp ho => exact fatalInv_cons h rfl rfl rfl
  | reportFailOk i l ts j t herr hl hp ht htp ho => exact fatalInv_cons h rfl rfl rfl
  | reportFailErr i l ts j t herr e hl hp ht htp ho => exact fatalInv_cons h rfl rfl rfl
  | taskDeliverPanic i l ts j t info hl hp ht htp hf => exact fatalInv_deliver h rfl hf rfl
  | taskDeliverReport i l ts j t e hl hp ht htp hf => exact fatalInv_deliver h rfl hf rfl
  | wgDone i l ts j t hl hp ht htp => exact fatalInv_cons h rfl rfl rfl
  | release i l ts j t hl hp ht htp => exact fatalInv_same h rfl rfl
  | lingeringRelease k t ht htp => exact fatalInv_same h rfl rfl

theorem fatalInv_reachable {o : Oracle} {sub : SubscriberData} {s : EngineState}
    (h : Reachable o sub s) : FatalInv s := by
  induction h with
  | refl => exact ⟨fun _ => rfl, fun v hv => by cases hv⟩
  | tail hab hbc ih => exact fatalInv_step ih hbc

/-- C4: `Subscribe` is blocked on `return <-chFatal` exactly while no
fatal delivery has completed (so without one it blocks forever and never
returns on its own), and when it returns, its return value is the single
error ever delivered on `chFatal` — exactly one delivery completed, the
returned value is that delivery's value whichever goroutine produced it,
and the value is a non-nil error (so `Subscribe` never returns nil). -/
theorem subscribe_returns_first_fatal (o : Oracle) (sub : SubscriberData)
    (s : EngineState) (h : Reachable o sub s) :
    (subscribeReturn s = none → countB isFatalEvent s.trace = 0) ∧
    (∀ v, subscribeReturn s = some v →
      countB isFatalEvent s.trace = 1 ∧ Event.fatalDelivered v ∈ s.trace ∧ v ≠ none) :=
  fatalInv_reachable h

theorem subscribe_returns_first_fatal_witness :
    countB isFatalEvent (initState sub1).trace = 0 :=
  (subscribe_returns_first_fatal oOne sub1 (initState sub1) Relation.ReflTransGen.refl).1 rfl

/-!
Preservation of the spawning-goroutine invariant.
-/

theorem spawnInv_spawning {o : Oracle} {sub : SubscriberData} {s : EngineState}
    {rest : List (String × HandlerEntry)} (h : SpawnInv o sub s)
    (hsp : s.spawner = .spawning rest) :
    ∃ pre, sub.handlers = pre ++ rest ∧ s.loops.map loopKey = pre ∧
      (∀ p ∈ pre, (o.getQueueID p.1).2 = none) ∧
      resolveNames s.trace = (pre.map Prod.fst).reverse := by
  unfold SpawnInv at h
  rw [hsp] at h
  exact h

theorem spawnInv_pendingS {o : Oracle} {sub : SubscriberData} {s : EngineState}
    {e : String} (h : SpawnInv o sub s) (hsp : s.spawner = .fatalPendingS e) :
    ∃ pre n ent rest, sub.handlers = pre ++ (n, ent) :: rest ∧
      s.loops.map loopKey = pre ∧
      (∀ p ∈ pre, (o.getQueueID p.1).2 = none) ∧
      (o.getQueueID n).2 = some e ∧
      resolveNames s.trace = (pre.map Prod.fst ++ [n]).reverse := by
  unfold SpawnInv at h
  rw [hsp] at h
  exact h

theorem spawnInv_invariant_step {o : Oracle} {sub : SubscriberData} {s s' : EngineState}
    (h : SpawnInv o sub s)
    (hsp : s'.spawner = s.spawner)
    (hkeys : s'.loops.map loopKey = s.loops.map loopKey)
    (hres : resolveNames s'.trace = resolveNames s.trace)
    (hfat : s.fatal ≠ none → s'.fatal ≠ none) : SpawnInv o sub s' := by
  unfold SpawnInv at h ⊢
  rw [hsp]
  cases hspawn : s.spawner with
  | spawning rest =>
    rw [hspawn] at h
    obtain ⟨pre, h1, h2, h3, h4⟩ := h
    exact ⟨pre, h1, by rw [hkeys]; exact h2, h3, by rw [hres]; exact h4⟩
  | fatalPendingS e =>
    rw [hspawn] at h
    obtain ⟨pre, n, ent, rest, h1, h2, h3, h4, h5⟩ := h
    exact ⟨pre, n, ent, rest, h1, by rw [hkeys]; exact h2, h3, h4,
      by rw [hres]; exact h5⟩
  | deadS =>
    rw [hspawn] at h
    obtain ⟨pre, n, ent, rest, e, h1, h2, h3, h4, h5, h6⟩ := h
    exact ⟨pre, n, ent, rest, e, h1, by rw [hkeys]; exact h2, h3, h4, hfat h5,
      by rw [hres]; exact h6⟩

theorem spawnInv_step {o : Oracle} {sub : SubscriberData} {s s' : EngineState}
    (h : SpawnInv o sub s) (hs : Step o s s') : SpawnInv o sub s' := by
  cases hs with
  | resolveOk n ent rest id hs' ho =>
    obtain ⟨pre, h1, h2, h3, h4⟩ := spawnInv_spawning h hs'
    unfold SpawnInv
    refine ⟨pre ++ [(n, ent)], ?_, ?_, ?_, ?_⟩
    · rw [h1]
      simp
    · show (s.loops ++ [(⟨n, id, ent, 0, .toFetch⟩ : LoopState)]).map loopKey = pre ++ [(n, ent)]
      rw [List.map_append, h2]
      rfl
    · intro p hp
      rcases List.mem_append.1 hp with hp | hp
      · exact h3 p hp
      · have hpn : p = (n, ent) := by simpa using hp
        rw [hpn, ho]
    · show n :: resolveNames s.trace = ((pre ++ [(n, ent)]).map Prod.fst).reverse
      rw [h4]
      simp
  | resolveErr n ent rest id e hs' ho =>
    obtain ⟨pre, h1, h2, h3, h4⟩ := spawnInv_spawning h hs'
    unfold SpawnInv
    refine ⟨pre, n, ent, rest, h1, h2, h3, by rw [ho], ?_⟩
    show n :: resolveNames s.trace = (pre.map Prod.fst ++ [n]).reverse
    rw [h4]
    simp
  | spawnerDeliver e hs' hf =>
    obtain ⟨pre, n, ent, rest, h1, h2, h3, h4, h5⟩ := spawnInv_pendingS h hs'
    unfold SpawnInv
    exact ⟨pre, n, ent, rest, e, h1, h2, h3, h4, by simp, h5⟩
  | fetchOk i l msgs hl hp ho =>
    exact spawnInv_invariant_step h rfl
      (map_set_congr loopKey s.loops i l _ hl rfl) rfl fun hh => hh
  | fetchErr i l msgs e hl hp ho =>
    exact spawnInv_invariant_step h rfl
      (map_set_congr loopKey s.loops i l _ hl rfl) rfl fun hh => hh
  | loopDeliver i l e hl hp hf =>
    exact spawnInv_invariant_step h rfl
      (map_set_congr loopKey s.loops i l _ hl rfl) rfl fun _ => by simp
  | drainDone i l ts hl hp hdone =>
    exact spawnInv_invariant_step h rfl
      (map_set_congr loopKey s.loops i l _ hl rfl) rfl fun hh => hh
  | acquire i l ts j t hl hp ht htp hsem =>
    exact spawnInv_invariant_step h rfl
      (map_set_congr loopKey s.loops i l _ hl rfl) rfl fun hh => hh
  | handlerRet i l ts j t err hl hp ht htp hh =>
    exact spawnInv_invariant_step h rfl
      (map_set_congr loopKey s.loops i l _ hl rfl) rfl fun hh => hh
  | handlerPanic i l ts j t info hl hp ht htp hh =>
    exact spawnInv_invariant_step h rfl
      (map_set_congr loopKey s.loops i l _ hl rfl) rfl fun hh => hh
  | reportSuccOk i l ts j t hl hp ht htp ho =>
    exact spawnInv_invariant_step h rfl
      (map_set_congr loopKey s.loops i l _ hl rfl) rfl fun hh => hh
  | reportSuccErr i l ts j t e hl hp ht htp ho =>
    exact spawnInv_invariant_step h rfl
      (map_set_congr loopKey s.loops i l _ hl rfl) rfl fun hh => hh
  | reportFailOk i l ts j t herr hl hp ht htp ho =>
    exact spawnInv_invariant_step h rfl
      (map_set_congr loopKey s.loops i l _ hl rfl) rfl fun hh => hh
  | reportFailErr i l ts j t herr e hl hp ht htp ho =>
    exact spawnInv_invariant_step h rfl
      (map_set_congr loopKey s.loops i l _ hl rfl) rfl fun hh => hh
  | taskDeliverPanic i l ts j t info hl hp ht htp hf =>
    exact spawnInv_invariant_step h rfl
      (map_set_congr loopKey s.loops i l _ hl rfl) rfl fun _ => by simp
  | taskDeliverReport i l ts j t e hl hp ht htp hf =>
    exact spawnInv_invariant_step h rfl
      (map_set_congr loopKey s.loops i l _ hl rfl) rfl fun _ => by simp
  | wgDone i l ts j t hl hp ht htp =>
    exact spawnInv_invariant_step h rfl
      (map_set_congr loopKey s.loops i l _ hl rfl) rfl fun hh => hh
  | release i l ts j t hl hp ht htp =>
    exact spawnInv_invariant_step h rfl
      (map_set_congr loopKey s.loops i l _ hl rfl) rfl fun hh => hh
  | lingeringRelease k t ht htp =>
    exact spawnInv_invariant_step h rfl rfl rfl fun hh => hh

/-!
Preservation of the per-loop origin invariant and the event-soundness
invariant.
-/

theorem loopsInv_set {o : Oracle} {sub : SubscriberData} {ls : List LoopState}
    (h : LoopsInv o sub ls) (i : Nat) (l l' : LoopState) (hl : ls.get? i = some l)
    (hn : l'.queueName = l.queueName) (he : l'.entry = l.entry)
    (hq : l'.queueID = l.queueID) :
    LoopsInv o sub (ls.set i l') := by
  intro x hx
  rcases mem_of_mem_set _ _ _ _ hx with hx | rfl
  · exact h x hx
  · have hmem := h l (List.get?_mem hl)
    rw [hn, he, hq]
    exact hmem

theorem loopsInv_step {o : Oracle} {sub : SubscriberData} {s s' : EngineState}
    (hsp : SpawnInv o sub s) (h : LoopsInv o sub s.loops) (hs : Step o s s') :
    LoopsInv o sub s'.loops := by
  cases hs with
  | resolveOk n ent rest id hs' ho =>
    intro x hx
    rcases List.mem_append.1 hx with hx | hx
    · exact h x hx
    · obtain ⟨pre, h1, _, _, _⟩ := spawnInv_spawning hsp hs'
      have hxx : x = (⟨n, id, ent, 0, .toFetch⟩ : LoopState) := by simpa using hx
      subst hxx
      refine ⟨?_, ho⟩
      rw [h1]
      exact List.mem_append.2 (Or.inr (by simp))
  | resolveErr n ent rest id e hs' ho => exact h
  | spawnerDeliver e hs' hf => exact h
  | fetchOk i l msgs hl hp ho => exact loopsInv_set h i l _ hl rfl rfl rfl
  | fetchErr i l msgs e hl hp ho => exact loopsInv_set h i l _ hl rfl rfl rfl
  | loopDeliver i l e hl hp hf => exact loopsInv_set h i l _ hl rfl rfl rfl
  | drainDone i l ts hl hp hdone => exact loopsInv_set h i l _ hl rfl rfl rfl
  | acquire i l ts j t hl hp ht htp hsem => exact loopsInv_set h i l _ hl rfl rfl rfl
  | handlerRet i l ts j t err hl hp ht htp hh => exact loopsInv_set h i l _ hl rfl rfl rfl
  | handlerPanic i l ts j t info hl hp ht htp hh => exact loopsInv_set h i l _ hl rfl rfl rfl
  | reportSuccOk i l ts j t hl hp ht htp ho => exact loopsInv_set h i l _ hl rfl rfl rfl
  | reportSuccErr i l ts j t e hl hp ht htp ho => exact loopsInv_set h i l _ hl rfl rfl rfl
  | reportFailOk i l ts j t herr hl hp ht htp ho => exact loopsInv_set h i l _ hl rfl rfl rfl
  | reportFailErr i l ts j t herr e hl hp ht htp ho =>
    exact loopsInv_set h i l _ hl rfl rfl rfl
  | taskDeliverPanic i l ts j t info hl hp ht htp hf =>
    exact loopsInv_set h i l _ hl rfl rfl rfl
  | taskDeliverReport i l ts j t e hl hp ht htp hf =>
    exact loopsInv_set h i l _ hl rfl rfl rfl
  | wgDone i l ts j t hl hp ht htp => exact loopsInv_set h i l _ hl rfl rfl rfl
  | release i l ts j t hl hp ht htp => exact loopsInv_set h i l _ hl rfl rfl rfl
  | lingeringRelease k t ht htp => exact h

theorem eventsInv_cons {o : Oracle} {sub : SubscriberData} {tr : List Event}
    (h : EventsInv o sub tr) (e : Event) (he : EventOK o sub e) :
    EventsInv o sub (e :: tr) := by
  intro x hx
  rcases List.mem_cons.1 hx with rfl | hx
  · exact he
  · exact h x hx

theorem eventsInv_step {o : Oracle} {sub : SubscriberData} {s s' : EngineState}
    (hL : LoopsInv o sub s.loops) (h : EventsInv o sub s.trace) (hs : Step o s s') :
    EventsInv o sub s'.trace := by
  cases hs with
  | resolveOk n ent rest id hs' ho => exact eventsInv_cons h _ ho
  | resolveErr n ent rest id e hs' ho => exact eventsInv_cons h _ ho
  | spawnerDeliver e hs' hf => exact eventsInv_cons h _ trivial
  | fetchOk i l msgs hl hp ho =>
    exact eventsInv_cons h _ ⟨(hL l (List.get?_mem hl)).2, ho⟩
  | fetchErr i l msgs e hl hp ho =>
    exact eventsInv_cons h _ ⟨(hL l (List.get?_mem hl)).2, ho⟩
  | loopDeliver i l e hl hp hf => exact eventsInv_cons h _ trivial
  | drainDone i l ts hl hp hdone => exact h
  | acquire i l ts j t hl hp ht htp hsem => exact eventsInv_cons h _ trivial
  | handlerRet i l ts j t err hl hp ht htp hh =>
    exact eventsInv_cons h _ ⟨l.entry, (hL l (List.get?_mem hl)).1, hh⟩
  | handlerPanic i l ts j t info hl hp ht htp hh =>
    exact eventsInv_cons h _ ⟨l.entry, (hL l (List.get?_mem hl)).1, hh⟩
  | reportSuccOk i l ts j t hl hp ht htp ho =>
    exact eventsInv_cons h _ ⟨(hL l (List.get?_mem hl)).2, ho⟩
  | reportSuccErr i l ts j t e hl hp ht htp ho =>
    exact eventsInv_cons h _ ⟨(hL l (List.get?_mem hl)).2, ho⟩
  | reportFailOk i l ts j t herr hl hp ht htp ho =>
    exact eventsInv_cons h _
      ⟨(hL l (List.get?_mem hl)).2, ⟨l.entry, (hL l (List.get?_mem hl)).1, rfl⟩, ho⟩
  | reportFailErr i l ts j t herr e hl hp ht htp ho =>
    exact eventsInv_cons h _
      ⟨(hL l (List.get?_mem hl)).2, ⟨l.entry, (hL l (List.get?_mem hl)).1, rfl⟩, ho⟩
  | taskDeliverPanic i l ts j t info hl hp ht htp hf => exact eventsInv_cons h _ trivial
  | taskDeliverReport i l ts j t e hl hp ht htp hf => exact eventsInv_cons h _ trivial
  | wgDone i l ts j t hl hp ht htp => exact eventsInv_cons h _ trivial
  | release i l ts j t hl hp ht htp => exact h
  | lingeringRelease k t ht htp => exact h

/-!
Preservation of the batch bookkeeping invariant.
-/

theorem terminal_mono {tr : List Event} {ev : Event} {m : ReceiveMessage}
    (h : ∃ e ∈ tr, TerminalFor m e) : ∃ e ∈ ev :: tr, TerminalFor m e := by
  obtain ⟨e, he, hte⟩ := h
  exact ⟨e, List.mem_cons_of_mem _ he, hte⟩

theorem batchTerm_mono {o : Oracle} {tr : List Event} {ev : Event} {qid : String}
    {k : Nat} (h : BatchTerm o tr qid k) : BatchTerm o (ev :: tr) qid k :=
  fun msgs hm m hmm => terminal_mono (h msgs hm m hmm)

theorem loopBatchInv_mono {o : Oracle} {tr : List Event} {ev : Event} {l : LoopState}
    (h : LoopBatchInv o tr l) : LoopBatchInv o (ev :: tr) l := by
  obtain ⟨h1, h2⟩ := h
  refine ⟨?_, fun k hk => batchTerm_mono (h2 k hk)⟩
  intro ts hts
  obtain ⟨ha, hb, hc⟩ := h1 ts hts
  exact ⟨ha, hb, fun t htt htp => terminal_mono (hc t htt htp)⟩

theorem batchInv_mono {o : Oracle} {tr : List Event} {ev : Event} {ls : List LoopState}
    (h : BatchInv o tr ls) : BatchInv o (ev :: tr) ls :=
  fun l hl => loopBatchInv_mono (h l hl)

theorem batchInv_set {o : Oracle} {tr : List Event} {ls : List LoopState} {i : Nat}
    {l : LoopState} (h : BatchInv o tr ls) (l' : LoopState) (hl : ls.get? i = some l)
    (hli : LoopBatchInv o tr l') : BatchInv o tr (ls.set i l') := by
  intro x hx
  rcases mem_of_mem_set _ _ _ _ hx with hx | rfl
  · exact h x hx
  · exact hli

/-- Batch bookkeeping of a loop whose task `j` changes phase, after a
new event is recorded.  The new phase either is non-terminal or comes
with a terminal event for the task's message in the new trace. -/
theorem loopBatchInv_set_task {o : Oracle} {tr : List Event} {ev : Event}
    {l : LoopState} {ts : List TaskState} {j : Nat} {t : TaskState} (p' : TaskPhase)
    (h : LoopBatchInv o tr l) (hp : l.phase = .draining ts) (ht : ts.get? j = some t)
    (hterm : terminalPhase p' = true → ∃ e ∈ ev :: tr, TerminalFor t.msg e) :
    LoopBatchInv o (ev :: tr)
      { l with phase := .draining (ts.set j { t with phase := p' }) } := by
  obtain ⟨h1, h2⟩ := h
  obtain ⟨ha, hb, hc⟩ := h1 ts hp
  constructor
  · intro ts' hts'
    have hts'' : ts' = ts.set j { t with phase := p' } := by
      injection hts' with heq
      exact heq.symm
    subst hts''
    refine ⟨ha, ?_, ?_⟩
    · show o.receive l.queueID (l.fetchCount - 1) = _
      rw [map_set_congr TaskState.msg ts j t { t with phase := p' } ht rfl]
      exact hb
    · intro x hx htx
      rcases mem_of_mem_set _ _ _ _ hx with hx | rfl
      · exact terminal_mono (hc x hx htx)
      · exact hterm htx
  · intro k hk
    have hk' : k < l.fetchCount - 1 := hk
    have hbound : k < loopPastBound l := by
      unfold loopPastBound
      rw [hp]
      exact hk'
    exact batchTerm_mono (h2 k hbound)

/-- Same-trace variant of `loopBatchInv_set_task`, for steps that record
no event. -/
theorem loopBatchInv_set_task_same {o : Oracle} {tr : List Event}
    {l : LoopState} {ts : List TaskState} {j : Nat} {t : TaskState} (p' : TaskPhase)
    (h : LoopBatchInv o tr l) (hp : l.phase = .draining ts) (ht : ts.get? j = some t)
    (hterm : terminalPhase p' = true → ∃ e ∈ tr, TerminalFor t.msg e) :
    LoopBatchInv o tr
      { l with phase := .draining (ts.set j { t with phase := p' }) } := by
  obtain ⟨h1, h2⟩ := h
  obtain ⟨ha, hb, hc⟩ := h1 ts hp
  constructor
  · intro ts' hts'
    have hts'' : ts' = ts.set j { t with phase := p' } := by
      injection hts' with heq
      exact heq.symm
    subst hts''
    refine ⟨ha, ?_, ?_⟩
    · show o.receive l.queueID (l.fetchCount - 1) = _
      rw [map_set_congr TaskState.msg ts j t { t with phase := p' } ht rfl]
      exact hb
    · intro x hx htx
      rcases mem_of_mem_set _ _ _ _ hx with hx | rfl
      · exact hc x hx htx
      · exact hterm htx
  · intro k hk
    have hk' : k < l.fetchCount - 1 := hk
    have hbound : k < loopPastBound l := by
      unfold loopPastBound
      rw [hp]
      exact hk'
    exact h2 k hbound

/-- A freshly started loop satisfies the batch bookkeeping. -/
theorem loopBatchInv_new {o : Oracle} {tr : List Event} (n id : String)
    (ent : HandlerEntry) :
    LoopBatchInv o tr (⟨n, id, ent, 0, .toFetch⟩ : LoopState) := by
  constructor
  · intro ts hts
    cases hts
  · intro k hk
    have hk0 : k < 0 := hk
    cases hk0

/-- A loop that leaves `toFetch` for an error send or termination keeps
the batch bookkeeping (its past bound drops to zero). -/
theorem loopBatchInv_not_draining {o : Oracle} {tr : List Event} (l' : LoopState)
    (hph : ∀ ts, l'.phase ≠ .draining ts) (hbound : loopPastBound l' = 0) :
    LoopBatchInv o tr l' := by
  constructor
  · intro ts hts
    exact absurd hts (hph ts)
  · intro k hk
    rw [hbound] at hk
    cases hk

theorem batchInv_step {o : Oracle} {s s' : EngineState}
    (h : BatchInv o s.trace s.loops) (hs : Step o s s') :
    BatchInv o s'.trace s'.loops := by
  cases hs with
  | resolveOk n ent rest id hs' ho =>
    intro x hx
    rcases List.mem_append.1 hx with hx | hx
    · exact loopBatchInv_mono (h x hx)
    · have hxx : x = (⟨n, id, ent, 0, .toFetch⟩ : LoopState) := by simpa using hx
      subst hxx
      exact loopBatchInv_new n id ent
  | resolveErr n ent rest id e hs' ho => exact batchInv_mono h
  | spawnerDeliver e hs' hf => exact batchInv_mono h
  | fetchOk i l msgs hl hp ho =>
    refine batchInv_set (batchInv_mono h) _ hl ?_
    have hold := h l (List.get?_mem hl)
    constructor
    · intro ts' hts'
      have hts'' : ts' = msgs.map fun m => (⟨m, .ready⟩ : TaskState) := by
        injection hts' with heq
        exact heq.symm
      subst hts''
      refine ⟨by show 1 ≤ l.fetchCount + 1; omega, ?_, ?_⟩
      · show o.receive l.queueID (l.fetchCount + 1 - 1) = _
        rw [map_msg_ready msgs]
        simpa using ho
      · intro x hx htx
        have hph : x.phase = .ready := by
          rcases List.mem_map.1 hx with ⟨m, _, rfl⟩
          rfl
        rw [hph] at htx
        cases htx
    · intro k hk
      have hk' : k < l.fetchCount + 1 - 1 := hk
      have hbeq : loopPastBound l = l.fetchCount := by
        unfold loopPastBound
        rw [hp]
      have hbound : k < loopPastBound l := by omega
      exact batchTerm_mono (hold.2 k hbound)
  | fetchErr i l msgs e hl hp ho =>
    refine batchInv_set (batchInv_mono h) _ hl ?_
    exact loopBatchInv_not_draining _ (fun ts hts => by cases hts) rfl
  | loopDeliver i l e hl hp hf =>
    refine batchInv_set (batchInv_mono h) _ hl ?_
    exact loopBatchInv_not_draining _ (fun ts hts => by cases hts) rfl
  | drainDone i l ts hl hp hdone =>
    refine batchInv_set h _ hl ?_
    have hold := h l (List.get?_mem hl)
    obtain ⟨ha, hb, hc⟩ := hold.1 ts hp
    constructor
    · intro ts' hts'
      cases hts'
    · intro k hk
      have hk' : k < l.fetchCount := hk
      by_cases hklt : k < l.fetchCount - 1
      · exact hold.2 k (by unfold loopPastBound; rw [hp]; exact hklt)
      · have hkeq : k = l.fetchCount - 1 := by omega
        subst hkeq
        intro msgs0 hrec m hm
        have hmeq : msgs0 = ts.map TaskState.msg := by
          rw [hrec] at hb
          exact (Prod.mk.inj hb).1
        subst hmeq
        rcases List.mem_map.1 hm with ⟨x, hx, rfl⟩
        refine hc x hx ?_
        rcases hdone x hx with hd | hd <;> rw [hd] <;> rfl
  | acquire i l ts j t hl hp ht htp hsem =>
    exact batchInv_set (batchInv_mono h) _ hl
      (loopBatchInv_set_task .running (h l (List.get?_mem hl)) hp ht
        fun habs => by cases habs)
  | handlerRet i l ts j t err hl hp ht htp hh =>
    exact batchInv_set (batchInv_mono h) _ hl
      (loopBatchInv_set_task (.handled err) (h l (List.get?_mem hl)) hp ht
        fun habs => by cases habs)
  | handlerPanic i l ts j t info hl hp ht htp hh =>
    exact batchInv_set (batchInv_mono h) _ hl
      (loopBatchInv_set_task (.panicked info) (h l (List.get?_mem hl)) hp ht
        fun _ => ⟨_, List.mem_cons_self _ _, Or.inr (Or.inr ⟨l.queueName, info, rfl⟩)⟩)
  | reportSuccOk i l ts j t hl hp ht htp ho =>
    exact batchInv_set (batchInv_mono h) _ hl
      (loopBatchInv_set_task .reportDone (h l (List.get?_mem hl)) hp ht
        fun _ => ⟨_, List.mem_cons_self _ _,
          Or.inl ⟨l.queueName, l.queueID, none, rfl⟩⟩)
  | reportSuccErr i l ts j t e hl hp ht htp ho =>
    exact batchInv_set (batchInv_mono h) _ hl
      (loopBatchInv_set_task (.reportFailed e) (h l (List.get?_mem hl)) hp ht
        fun _ => ⟨_, List.mem_cons_self _ _,
          Or.inl ⟨l.queueName, l.queueID, some e, rfl⟩⟩)
  | reportFailOk i l ts j t herr hl hp ht htp ho =>
    exact batchInv_set (batchInv_mono h) _ hl
      (loopBatchInv_set_task .reportDone (h l (List.get?_mem hl)) hp ht
        fun _ => ⟨_, List.mem_cons_self _ _,
          Or.inr (Or.inl ⟨l.queueName, l.queueID, l.entry.option.waitTime, none, rfl⟩)⟩)
  | reportFailErr i l ts j t herr e hl hp ht htp ho =>
    exact batchInv_set (batchInv_mono h) _ hl
      (loopBatchInv_set_task (.reportFailed e) (h l (List.get?_mem hl)) hp ht
        fun _ => ⟨_, List.mem_cons_self _ _,
          Or.inr (Or.inl ⟨l.queueName, l.queueID, l.entry.option.waitTime, some e, rfl⟩)⟩)
  | taskDeliverPanic i l ts j t info hl hp ht htp hf =>
    refine batchInv_set (batchInv_mono h) _ hl
      (loopBatchInv_set_task .sentFatal (h l (List.get?_mem hl)) hp ht fun _ => ?_)
    have hold := ((h l (List.get?_mem hl)).1 ts hp).2.2 t (List.get?_mem ht)
      (by rw [htp]; rfl)
    exact terminal_mono hold
  | taskDeliverReport i l ts j t e hl hp ht htp hf =>
    refine batchInv_set (batchInv_mono h) _ hl
      (loopBatchInv_set_task .sentFatal (h l (List.get?_mem hl)) hp ht fun _ => ?_)
    have hold := ((h l (List.get?_mem hl)).1 ts hp).2.2 t (List.get?_mem ht)
      (by rw [htp]; rfl)
    exact terminal_mono hold
  | wgDone i l ts j t hl hp ht htp =>
    refine batchInv_set (batchInv_mono h) _ hl
      (loopBatchInv_set_task .doneWg (h l (List.get?_mem hl)) hp ht fun _ => ?_)
    have htpt : terminalPhase t.phase = true := by
      rcases htp with htp | htp <;> rw [htp] <;> rfl
    exact terminal_mono (((h l (List.get?_mem hl)).1 ts hp).2.2 t (List.get?_mem ht) htpt)
  | release i l ts j t hl hp ht htp =>
    refine batchInv_set h _ hl
      (loopBatchInv_set_task_same .finished (h l (List.get?_mem hl)) hp ht fun _ => ?_)
    have htpt : terminalPhase t.phase = true := by rw [htp]; rfl
    exact ((h l (List.get?_mem hl)).1 ts hp).2.2 t (List.get?_mem ht) htpt
  | lingeringRelease k t ht htp => exact h

/-!
Preservation of the trace-level fetch barrier.
-/

theorem traceFetchInv_cons_nonfetch {o : Oracle} {tr : List Event}
    (h : TraceFetchInv o tr) (ev : Event)
    (hev : ∀ qn qid idx msgs err, ev ≠ .fetch qn qid idx msgs err) :
    TraceFetchInv o (ev :: tr) := by
  intro a qn qid idx msgs err b hab k hk
  cases a with
  | nil =>
    injection hab with h1 h2
    exact absurd h1 (hev qn qid idx msgs err)
  | cons x a' =>
    injection hab with h1 h2
    exact h a' qn qid idx msgs err b h2 k hk

theorem traceFetchInv_cons_fetch {o : Oracle} {tr : List Event}
    (h : TraceFetchInv o tr) (qn qid : String) (idx : Nat)
    (msgs : List ReceiveMessage) (err : GoErr)
    (hpast : ∀ k, k < idx → BatchTerm o tr qid k) :
    TraceFetchInv o (.fetch qn qid idx msgs err :: tr) := by
  intro a qn' qid' idx' msgs' err' b hab k hk
  cases a with
  | nil =>
    injection hab with h1 h2
    cases h1
    subst h2
    exact hpast k hk
  | cons x a' =>
    injection hab with h1 h2
    exact h a' qn' qid' idx' msgs' err' b h2 k hk

theorem traceFetchInv_step {o : Oracle} {s s' : EngineState}
    (hB : BatchInv o s.trace s.loops) (h : TraceFetchInv o s.trace) (hs : Step o s s') :
    TraceFetchInv o s'.trace := by
  cases hs with
  | resolveOk n ent rest id hs' ho =>
    exact traceFetchInv_cons_nonfetch h _ fun _ _ _ _ _ hc => by cases hc
  | resolveErr n ent rest id e hs' ho =>
    exact traceFetchInv_cons_nonfetch h _ fun _ _ _ _ _ hc => by cases hc
  | spawnerDeliver e hs' hf =>
    exact traceFetchInv_cons_nonfetch h _ fun _ _ _ _ _ hc => by cases hc
  | fetchOk i l msgs hl hp ho =>
    refine traceFetchInv_cons_fetch h _ _ _ _ _ fun k hk => ?_
    have hbeq : loopPastBound l = l.fetchCount := by
      unfold loopPastBound
      rw [hp]
    exact (hB l (List.get?_mem hl)).2 k (by omega)
  | fetchErr i l msgs e hl hp ho =>
    refine traceFetchInv_cons_fetch h _ _ _ _ _ fun k hk => ?_
    have hbeq : loopPastBound l = l.fetchCount := by
      unfold loopPastBound
      rw [hp]
    exact (hB l (List.get?_mem hl)).2 k (by omega)
  | loopDeliver i l e hl hp hf =>
    exact traceFetchInv_cons_nonfetch h _ fun _ _ _ _ _ hc => by cases hc
  | drainDone i l ts hl hp hdone => exact h
  | acquire i l ts j t hl hp ht htp hsem =>
    exact traceFetchInv_cons_nonfetch h _ fun _ _ _ _ _ hc => by cases hc
  | handlerRet i l ts j t err hl hp ht htp hh =>
    exact traceFetchInv_cons_nonfetch h _ fun _ _ _ _ _ hc => by cases hc
  | handlerPanic i l ts j t info hl hp ht htp hh =>
    exact traceFetchInv_cons_nonfetch h _ fun _ _ _ _ _ hc => by cases hc
  | reportSuccOk i l ts j t hl hp ht htp ho =>
    exact traceFetchInv_cons_nonfetch h _ fun _ _ _ _ _ hc => by cases hc
  | reportSuccErr i l ts j t e hl hp ht htp ho =>
    exact traceFetchInv_cons_nonfetch h _ fun _ _ _ _ _ hc => by cases hc
  | reportFailOk i l ts j t herr hl hp ht htp ho =>
    exact traceFetchInv_cons_nonfetch h _ fun _ _ _ _ _ hc => by cases hc
  | reportFailErr i l ts j t herr e hl hp ht htp ho =>
    exact traceFetchInv_cons_nonfetch h _ fun _ _ _ _ _ hc => by cases hc
  | taskDeliverPanic i l ts j t info hl hp ht htp hf =>
    exact traceFetchInv_cons_nonfetch h _ fun _ _ _ _ _ hc => by cases hc
  | taskDeliverReport i l ts j t e hl hp ht htp hf =>
    exact traceFetchInv_cons_nonfetch h _ fun _ _ _ _ _ hc => by cases hc
  | wgDone i l ts j t hl hp ht htp =>
    exact traceFetchInv_cons_nonfetch h _ fun _ _ _ _ _ hc => by cases hc
  | release i l ts j t hl hp ht htp => exact h
  | lingeringRelease k t ht htp => exact h

/-!
All structural invariants hold in every reachable state.
-/

theorem globalInv_reachable {o : Oracle} {sub : SubscriberData} {s : EngineState}
    (h : Reachable o sub s) : GlobalInv o sub s := by
  induction h with
  | refl =>
    refine ⟨?_, ?_, ?_, ?_, ?_⟩
    · unfold SpawnInv
      exact ⟨[], rfl, rfl, by simp, rfl⟩
    · intro l hl
      cases hl
    · intro e he
      cases he
    · intro l hl
      cases hl
    · intro a qn qid idx msgs err b hab k hk
      exact absurd hab (by simp [initState])
  | tail hab hbc ih =>
    obtain ⟨h1, h2, h3, h4, h5⟩ := ih
    exact ⟨spawnInv_step h1 hbc, loopsInv_step h1 h2 hbc, eventsInv_step h2 h3 hbc,
      batchInv_step h4 hbc, traceFetchInv_step h4 h5 hbc⟩

/-!
Claims C8, C10 and C3 on the transition system.
-/

/-- The names `GetQueueID` was called for are a prefix of the registry's
names, possibly followed by one failing name — in particular, each call
count is bounded by the name's count in the registry. -/
theorem count_resolveNames_le {o : Oracle} {sub : SubscriberData} {s : EngineState}
    (h : SpawnInv o sub s) (q : String) :
    (resolveNames s.trace).count q ≤ (sub.handlers.map Prod.fst).count q := by
  unfold SpawnInv at h
  cases hsp : s.spawner with
  | spawning rest =>
    rw [hsp] at h
    obtain ⟨pre, h1, _, _, h4⟩ := h
    rw [h4, List.count_reverse, h1]
    simp only [List.map_append, List.count_append]
    omega
  | fatalPendingS e =>
    rw [hsp] at h
    obtain ⟨pre, n, ent, rest, h1, _, _, _, h5⟩ := h
    rw [h5, List.count_reverse, h1]
    simp only [List.map_append, List.count_append, List.map_cons, List.count_cons,
      List.count_nil]
    omega
  | deadS =>
    rw [hsp] at h
    obtain ⟨pre, n, ent, rest, e, h1, _, _, _, _, h6⟩ := h
    rw [h6, List.count_reverse, h1]
    simp only [List.map_append, List.count_append, List.map_cons, List.count_cons,
      List.count_nil]
    omega

/-- C8: in every reachable state, (a) every started poll loop belongs to
a registry entry whose name the spawner resolved, without error, to the
identifier the loop carries; (b) every recorded fetch used that resolved
identifier and agrees with the client; (c) every handler run used the
registry entry of the queue the message was fetched from; (d, e) every
report call used the resolved identifier (and, for failure reports, the
registered `WaitTime` of that queue's entry); and (f) when the registry
names are distinct (as Go map keys are), no name is resolved more than
once. -/
theorem queue_binding_respected (o : Oracle) (sub : SubscriberData) (s : EngineState)
    (h : Reachable o sub s) :
    (∀ l ∈ s.loops, (l.queueName, l.entry) ∈ sub.handlers ∧
      o.getQueueID l.queueName = (l.queueID, none)) ∧
    (∀ qn qid idx msgs err, Event.fetch qn qid idx msgs err ∈ s.trace →
      o.getQueueID qn = (qid, none) ∧ o.receive qid idx = (msgs, err)) ∧
    (∀ qn msg err, Event.handlerEnd qn msg err ∈ s.trace →
      ∃ ent, (qn, ent) ∈ sub.handlers ∧ applyHandler ent msg = .ret err) ∧
    (∀ qn qid rh err, Event.reportSuccessCall qn qid rh err ∈ s.trace →
      o.getQueueID qn = (qid, none) ∧ o.reportSuccess qid rh = err) ∧
    (∀ qn qid rh wt err, Event.reportFailureCall qn qid rh wt err ∈ s.trace →
      o.getQueueID qn = (qid, none) ∧
      (∃ ent, (qn, ent) ∈ sub.handlers ∧ wt = ent.option.waitTime) ∧
      o.reportFailure qid rh wt = err) ∧
    ((sub.handlers.map Prod.fst).Nodup →
      ∀ q, (resolveNames s.trace).count q ≤ 1) := by
  obtain ⟨h1, h2, h3, _, _⟩ := globalInv_reachable h
  refine ⟨h2, ?_, ?_, ?_, ?_, ?_⟩
  · intro qn qid idx msgs err he
    exact h3 _ he
  · intro qn msg err he
    exact h3 _ he
  · intro qn qid rh err he
    exact h3 _ he
  · intro qn qid rh wt err he
    exact h3 _ he
  · intro hnodup q
    exact le_trans (count_resolveNames_le h1 q)
      (List.nodup_iff_count_le_one.1 hnodup q)

theorem queue_binding_respected_witness :
    (resolveNames (initState sub1).trace).count nameQ1 ≤ 1 :=
  (queue_binding_respected oOne sub1 (initState sub1) Relation.ReflTransGen.refl).2.2.2.2.2
    (by decide) nameQ1

/-- In every state, the started loops are the entries of a
fully-resolving prefix of the registry. -/
theorem spawnInv_loops_prefix {o : Oracle} {sub : SubscriberData} {s : EngineState}
    (h : SpawnInv o sub s) :
    ∃ preK suffix, sub.handlers = preK ++ suffix ∧ s.loops.map loopKey = preK ∧
      ∀ p ∈ preK, (o.getQueueID p.1).2 = none := by
  unfold SpawnInv at h
  cases hsp : s.spawner with
  | spawning rest =>
    rw [hsp] at h
    obtain ⟨pre, h1, h2, h3, _⟩ := h
    exact ⟨pre, rest, h1, h2, h3⟩
  | fatalPendingS e =>
    rw [hsp] at h
    obtain ⟨pre, n, ent, rest, h1, h2, h3, _, _⟩ := h
    exact ⟨pre, (n, ent) :: rest, h1, h2, h3⟩
  | deadS =>
    rw [hsp] at h
    obtain ⟨pre, n, ent, rest, e, h1, h2, h3, _, _, _⟩ := h
    exact ⟨pre, (n, ent) :: rest, h1, h2, h3⟩

/-- A fully-resolving prefix of the registry cannot reach past a
non-resolving entry: its elements all lie before that entry. -/
theorem prefix_stops_at_failure {o : Oracle} (handlers preE restE preK suffixK :
      List (String × HandlerEntry)) (n : String) (ent : HandlerEntry) (e : String)
    (hdec : handlers = preE ++ (n, ent) :: restE)
    (hdec' : handlers = preK ++ suffixK)
    (hok : ∀ p ∈ preK, (o.getQueueID p.1).2 = none)
    (hfail : (o.getQueueID n).2 = some e) :
    ∀ p ∈ preK, p ∈ preE := by
  have hlen : preK.length ≤ preE.length := by
    by_contra hlt
    push_neg at hlt
    have hget : handlers.get? preE.length = some (n, ent) := by
      rw [hdec, List.get?_append_right (le_refl preE.length)]
      simp
    have hget2 : preK.get? preE.length = some (n, ent) := by
      rw [hdec', List.get?_append hlt] at hget
      exact hget
    have hcon := hok _ (List.get?_mem hget2)
    rw [hfail] at hcon
    cases hcon
  have htake : preK = preE.take preK.length := by
    have h1 : handlers.take preK.length = preK := by
      rw [hdec']
      exact List.take_left preK suffixK
    have h2 : handlers.take preK.length = preE.take preK.length := by
      rw [hdec]
      exact List.take_append_of_le_length hlen
    exact h1.symm.trans h2
  intro p hp
  rw [htake] at hp
  exact List.take_subset _ _ hp

/-- Runs the spawner over a fully-resolving block of registry entries:
from a state whose spawner still has `mid ++ rest` to iterate, a state is
reachable in which the spawner has `rest` left, the fatal slot is
unchanged, and one loop was started per entry of `mid`, in order. -/
theorem spawn_run (o : Oracle) (sub : SubscriberData) :
    ∀ (mid rest : List (String × HandlerEntry)) (s : EngineState),
      Reachable o sub s → s.spawner = .spawning (mid ++ rest) →
      (∀ p ∈ mid, (o.getQueueID p.1).2 = none) →
      ∃ s', Reachable o sub s' ∧ s'.spawner = .spawning rest ∧
        s'.fatal = s.fatal ∧
        s'.loops.map loopKey = s.loops.map loopKey ++ mid := by
  intro mid
  induction mid with
  | nil =>
    intro rest s hr hsp hok
    exact ⟨s, hr, by simpa using hsp, rfl, by simp⟩
  | cons p mid' ih =>
    intro rest s hr hsp hok
    obtain ⟨n0, e0⟩ := p
    have hok0 : (o.getQueueID n0).2 = none := hok (n0, e0) (by simp)
    have hid : o.getQueueID n0 = ((o.getQueueID n0).1, none) := by
      rw [← hok0]
    have hstep : Step o s { s with
        spawner := .spawning (mid' ++ rest)
        loops := s.loops ++ [⟨n0, (o.getQueueID n0).1, e0, 0, .toFetch⟩]
        trace := .resolve n0 (o.getQueueID n0).1 none :: s.trace } :=
      Step.resolveOk s n0 e0 (mid' ++ rest) (o.getQueueID n0).1 (by simpa using hsp) hid
    obtain ⟨s', hr', hsp', hfat', hkeys'⟩ :=
      ih rest _ (Relation.ReflTransGen.tail hr hstep) rfl
        (fun q hq => hok q (by simp [hq]))
    refine ⟨s', hr', hsp', hfat', ?_⟩
    rw [hkeys']
    simp [loopKey]

/-- C10: when `GetQueueID` fails for the registry entry `(n, ent)` (all
earlier entries resolving fine), then (a) in every reachable state the
started poll loops come only from entries strictly before the failing
one — loops for entries after it are never started; and (b) the run in
which the spawner delivers that error on `chFatal` and returns is
reachable: its final state has the spawning goroutine terminated, the
resolve error received by `Subscribe`, and exactly the earlier entries'
loops started. -/
theorem resolve_failure_blocks_later_loops (o : Oracle) (sub : SubscriberData)
    (pre rest : List (String × HandlerEntry)) (n : String) (ent : HandlerEntry)
    (e : String) (hdec : sub.handlers = pre ++ (n, ent) :: rest)
    (hpre : ∀ p ∈ pre, (o.getQueueID p.1).2 = none)
    (hfail : (o.getQueueID n).2 = some e) :
    (∀ s, Reachable o sub s → ∀ l ∈ s.loops, (l.queueName, l.entry) ∈ pre) ∧
    (∃ s', Reachable o sub s' ∧ s'.spawner = .deadS ∧ s'.fatal = some (some e) ∧
      s'.loops.map loopKey = pre) := by
  constructor
  · intro s hr l hl
    obtain ⟨preK, suffixK, hdec', hkeys, hok⟩ :=
      spawnInv_loops_prefix (globalInv_reachable hr).1
    have hmem : (l.queueName, l.entry) ∈ preK := by
      rw [← hkeys]
      exact List.mem_map_of_mem loopKey hl
    exact prefix_stops_at_failure sub.handlers pre rest preK suffixK n ent e
      hdec hdec' hok hfail _ hmem
  · obtain ⟨s1, hr1, hsp1, hfat1, hkeys1⟩ :=
      spawn_run o sub pre ((n, ent) :: rest) (initState sub)
        Relation.ReflTransGen.refl
        (by show SpawnerState.spawning sub.handlers
              = SpawnerState.spawning (pre ++ (n, ent) :: rest)
            rw [hdec]) hpre
    have hfid : o.getQueueID n = ((o.getQueueID n).1, some e) := by
      rw [← hfail]
    have hstep2 : Step o s1 { s1 with
        spawner := .fatalPendingS e
        trace := .resolve n (o.getQueueID n).1 (some e) :: s1.trace } :=
      Step.resolveErr s1 n ent rest (o.getQueueID n).1 e hsp1 hfid
    have hfat2 : s1.fatal = none := by
      rw [hfat1]
      rfl
    have hstep3 : Step o { s1 with
        spawner := .fatalPendingS e
        trace := .resolve n (o.getQueueID n).1 (some e) :: s1.trace } { s1 with
        spawner := .deadS
        fatal := some (some e)
        trace := .fatalDelivered (some e) ::
          .resolve n (o.getQueueID n).1 (some e) :: s1.trace } :=
      Step.spawnerDeliver _ e rfl hfat2
    refine ⟨_, Relation.ReflTransGen.tail (Relation.ReflTransGen.tail hr1 hstep2) hstep3,
      rfl, rfl, ?_⟩
    show s1.loops.map loopKey = pre
    rw [hkeys1]
    simp [initState]

theorem resolve_failure_blocks_later_loops_witness :
    ∃ s', Reachable oFail sub2 s' ∧ s'.spawner = SpawnerState.deadS ∧
      s'.fatal = some (some errResolve) ∧ s'.loops.map loopKey = [(nameQ1, entq)] :=
  (resolve_failure_blocks_later_loops oFail sub2 [(nameQ1, entq)]
    [(nameQ2, entq)] nameBad entq errResolve rfl
    (fun p hp => by rw [List.mem_singleton.1 hp]; rfl) rfl).2

/-- C3: whenever a poll loop's fetch number `k + 1` appears in the
trace of a reachable state, every message of the batch that the fetch
number `k` on the same queue identifier returned had already reached a
terminal outcome — a completed report call with its receipt handle, or a
recovered abnormal termination — strictly before that next fetch (the
terminal event lies in the part of the trace older than the fetch
event). -/
theorem no_fetch_before_batch_terminal (o : Oracle) (sub : SubscriberData)
    (s : EngineState) (h : Reachable o sub s) (a b : List Event) (qn qid : String)
    (k : Nat) (msgs' : List ReceiveMessage) (err : GoErr)
    (htr : s.trace = a ++ Event.fetch qn qid (k + 1) msgs' err :: b)
    (msgs : List ReceiveMessage) (hk : o.receive qid k = (msgs, none))
    (m : ReceiveMessage) (hm : m ∈ msgs) :
    ∃ e ∈ b, TerminalFor m e :=
  (globalInv_reachable h).2.2.2.2 a qn qid (k + 1) msgs' err b htr k
    (Nat.lt_succ_self k) msgs hk m hm

theorem sC3_reachable : Reachable oOne sub1 sC3 := by
  have h0 : Reachable oOne sub1 (initState sub1) := Relation.ReflTransGen.refl
  have h1 : Reachable oOne sub1
      { limit := 2, sem := 0, spawner := .spawning [],
        loops := [⟨nameQ1, idQ, entq, 0, .toFetch⟩], lingering := [], fatal := none,
        trace := [.resolve nameQ1 idQ none] } :=
    Relation.ReflTransGen.tail h0
      (Step.resolveOk (initState sub1) nameQ1 entq [] idQ rfl rfl)
  have h2 : Reachable oOne sub1
      { limit := 2, sem := 0, spawner := .spawning [],
        loops := [⟨nameQ1, idQ, entq, 1, .draining [⟨msg1, .ready⟩]⟩], lingering := [],
        fatal := none,
        trace := [.fetch nameQ1 idQ 0 [msg1] none, .resolve nameQ1 idQ none] } :=
    Relation.ReflTransGen.tail h1
      (Step.fetchOk _ 0 ⟨nameQ1, idQ, entq, 0, .toFetch⟩ [msg1] rfl rfl rfl)
  have h3 : Reachable oOne sub1
      { limit := 2, sem := 1, spawner := .spawning [],
        loops := [⟨nameQ1, idQ, entq, 1, .draining [⟨msg1, .running⟩]⟩], lingering := [],
        fatal := none,
        trace := [.handlerStart nameQ1 msg1,
          .fetch nameQ1 idQ 0 [msg1] none, .resolve nameQ1 idQ none] } :=
    Relation.ReflTransGen.tail h2
      (Step.acquire _ 0 ⟨nameQ1, idQ, entq, 1, .draining [⟨msg1, .ready⟩]⟩
        [⟨msg1, .ready⟩] 0 ⟨msg1, .ready⟩ rfl rfl rfl rfl (by decide))
  have h4 : Reachable oOne sub1
      { limit := 2, sem := 1, spawner := .spawning [],
        loops := [⟨nameQ1, idQ, entq, 1, .draining [⟨msg1, .handled none⟩]⟩],
        lingering := [], fatal := none,
        trace := [.handlerEnd nameQ1 msg1 none, .handlerStart nameQ1 msg1,
          .fetch nameQ1 idQ 0 [msg1] none, .resolve nameQ1 idQ none] } :=
    Relation.ReflTransGen.tail h3
      (Step.handlerRet _ 0 ⟨nameQ1, idQ, entq, 1, .draining [⟨msg1, .running⟩]⟩
        [⟨msg1, .running⟩] 0 ⟨msg1, .running⟩ none rfl rfl rfl rfl rfl)
  have h5 : Reachable oOne sub1
      { limit := 2, sem := 1, spawner := .spawning [],
        loops := [⟨nameQ1, idQ, entq, 1, .draining [⟨msg1, .reportDone⟩]⟩],
        lingering := [], fatal := none,
        trace := [.reportSuccessCall nameQ1 idQ msg1.receiptHandle none,
          .handlerEnd nameQ1 msg1 none, .handlerStart nameQ1 msg1,
          .fetch nameQ1 idQ 0 [msg1] none, .resolve nameQ1 idQ none] } :=
    Relation.ReflTransGen.tail h4
      (Step.reportSuccOk _ 0 ⟨nameQ1, idQ, entq, 1, .draining [⟨msg1, .handled none⟩]⟩
        [⟨msg1, .handled none⟩] 0 ⟨msg1, .handled none⟩ rfl rfl rfl rfl rfl)
  have h6 : Reachable oOne sub1
      { limit := 2, sem := 1, spawner := .spawning [],
        loops := [⟨nameQ1, idQ, entq, 1, .draining [⟨msg1, .doneWg⟩]⟩],
        lingering := [], fatal := none,
        trace := [.taskDone nameQ1 msg1,
          .reportSuccessCall nameQ1 idQ msg1.receiptHandle none,
          .handlerEnd nameQ1 msg1 none, .handlerStart nameQ1 msg1,
          .fetch nameQ1 idQ 0 [msg1] none, .resolve nameQ1 idQ none] } :=
    Relation.ReflTransGen.tail h5
      (Step.wgDone _ 0 ⟨nameQ1, idQ, entq, 1, .draining [⟨msg1, .reportDone⟩]⟩
        [⟨msg1, .reportDone⟩] 0 ⟨msg1, .reportDone⟩ rfl rfl rfl (Or.inl rfl))
  have h7 : Reachable oOne sub1
      { limit := 2, sem := 0, spawner := .spawning [],
        loops := [⟨nameQ1, idQ, entq, 1, .draining [⟨msg1, .finished⟩]⟩],
        lingering := [], fatal := none,
        trace := [.taskDone nameQ1 msg1,
          .reportSuccessCall nameQ1 idQ msg1.receiptHandle none,
          .handlerEnd nameQ1 msg1 none, .handlerStart nameQ1 msg1,
          .fetch nameQ1 idQ 0 [msg1] none, .resolve nameQ1 idQ none] } :=
    Relation.ReflTransGen.tail h6
      (Step.release _ 0 ⟨nameQ1, idQ, entq, 1, .draining [⟨msg1, .doneWg⟩]⟩
        [⟨msg1, .doneWg⟩] 0 ⟨msg1, .doneWg⟩ rfl rfl rfl rfl)
  have h8 : Reachable oOne sub1
      { limit := 2, sem := 0, spawner := .spawning [],
        loops := [⟨nameQ1, idQ, entq, 1, .toFetch⟩],
        lingering := [], fatal := none,
        trace := [.taskDone nameQ1 msg1,
          .reportSuccessCall nameQ1 idQ msg1.receiptHandle none,
          .handlerEnd nameQ1 msg1 none, .handlerStart nameQ1 msg1,
          .fetch nameQ1 idQ 0 [msg1] none, .resolve nameQ1 idQ none] } :=
    Relation.ReflTransGen.tail h7
      (Step.drainDone _ 0 ⟨nameQ1, idQ, entq, 1, .draining [⟨msg1, .finished⟩]⟩
        [⟨msg1, .finished⟩] rfl rfl
        (fun t ht => by rw [List.mem_singleton.1 ht]; exact Or.inr rfl))
  exact Relation.ReflTransGen.tail h8
    (Step.fetchOk _ 0 ⟨nameQ1, idQ, entq, 1, .toFetch⟩ [] rfl rfl rfl)

theorem no_fetch_before_batch_terminal_witness :
    ∃ e ∈ [Event.taskDone nameQ1 msg1,
      Event.reportSuccessCall nameQ1 idQ msg1.receiptHandle none,
      Event.handlerEnd nameQ1 msg1 none, Event.handlerStart nameQ1 msg1,
      Event.fetch nameQ1 idQ 0 [msg1] none, Event.resolve nameQ1 idQ none],
      TerminalFor msg1 e :=
  no_fetch_before_batch_terminal oOne sub1 sC3 sC3_reachable
    [] _ nameQ1 idQ 0 [] none rfl [msg1] rfl msg1 (List.mem_singleton.2 rfl)

end PubSub
